import Mathlib

/-!
# lua-ev object bridge (`obj_lua_ev.c`): a shallow embedding

The seven C functions of `obj_lua_ev.c` are written against the Lua 5.1 C API.
The embedding has two layers.

* A model of the part of the Lua 5.1 runtime the functions drive: values, tables,
  full userdata, the value stack with its index arithmetic, the registry, and the
  primitive and metamethod-aware table accesses (`luaH_get`, `luaH_set`, `luaV_gettable`,
  `luaV_settable`).  It follows `lapi.c`, `lvm.c` and `ltable.c` of Lua 5.1.
* The seven functions themselves, translated statement by statement.

Conventions of the runtime model.

* `lua_State.stack` lists the stack slots of the running C function from the top
  down: its head is index `-1`, its last element is index `1`.
* Every function starts with the `LUA_MINSTACK` free stack slots the runtime gives a C
  function.  The functions that push a fixed number of values (five at most) stay within
  them, and for these the room is left implicit.  `push_objs` pushes as many values as its
  array is long: there the room is explicit, it grows only when `lua_checkstack` grants the
  request, and a push without room overruns the stack (`LuaError.stackoverrun`).
* The collector does not run between two API calls.
* A number is an integer or `NaN` (`Value.nan`); the other floating-point numbers are not
  modelled.  A C `int` counter is an unbounded integer: the count of `obj_count` cannot
  overflow before the registry holds `2^31` entries, and `push_objs` returns only for arrays
  of at most `LUAI_MAXCSTACK` pointers (`push_objs_count_bound`).
* A failing `api_check`, a failing `assert`, and a raised Lua error are all results
  of type `LuaError`; a function-valued metamethod would run script code and is
  reported as `LuaError.callmeta`.
* A table is its list of live entries: no entry has a `nil` or `NaN` key, or a `nil` value.
-/

namespace LuaEv

/-- A native pointer; `0` is `NULL`. -/
abbrev Ptr := Nat

/-- The Lua 5.1 value kinds (`TValue`).  Collectable objects are references into the heap. -/
inductive Value where
  | nil
  | boolean (b : Bool)
  | lightuserdata (p : Ptr)
  | number (n : Int)
  | nan
  | str (s : String)
  | table (r : Nat)
  | function (f : Nat)
  | userdata (u : Nat)
  | thread (c : Nat)
  deriving DecidableEq, Repr

/-- The ways a call can fail to return normally. -/
inductive LuaError where
  | typerror (narg : Int) (tname : String)
  | runerror (msg : String)
  | memerr
  | assertfail
  | apicheck
  | outofbounds
  | callmeta
  | outoffuel
  | stackoverrun
  deriving DecidableEq, Repr

/-- A Lua table: its live entries in traversal order, and its metatable. -/
structure Table where
  entries : List (Value × Value)
  metatable : Option Nat
  deriving DecidableEq, Repr

/-- A full userdata: the address of its block, the block size, its metatable and environment. -/
structure Udata where
  addr : Ptr
  size : Nat
  metatable : Option Nat
  env : Nat
  deriving DecidableEq, Repr

/-- The runtime state seen by a running C function. -/
structure lua_State where
  stack : List Value
  tables : List Table
  udatas : List Udata
  l_registry : Nat
  l_gt : Nat
  env : Nat
  upvalues : List Value
  mt : List (Option Nat)
  deriving DecidableEq, Repr

deriving instance DecidableEq for Except

/-- The type tag of a value (`LUA_TNIL` = 0, ..., `LUA_TTHREAD` = 8). -/
def ttype : Value → Nat
  | .nil => 0
  | .boolean _ => 1
  | .lightuserdata _ => 2
  | .number _ => 3
  | .nan => 3
  | .str _ => 4
  | .table _ => 5
  | .function _ => 6
  | .userdata _ => 7
  | .thread _ => 8

def LUA_REGISTRYINDEX : Int := -10000
def LUA_ENVIRONINDEX : Int := -10001
def LUA_GLOBALSINDEX : Int := -10002
def LUAI_MAXCSTACK : Int := 8000
def LUA_MINSTACK : Int := 20
def MAXTAGLOOP : Nat := 100

/-! ## Heap access -/

def getTable (L : lua_State) (r : Nat) : Except LuaError Table :=
  match L.tables[r]? with
  | some t => .ok t
  | none => .error .apicheck

def getUdata (L : lua_State) (u : Nat) : Except LuaError Udata :=
  match L.udatas[u]? with
  | some d => .ok d
  | none => .error .apicheck

/-- Overwrite slot `i` of a list, padding with `d` when the list is too short. -/
def setPad {α : Type} (d : α) : List α → Nat → α → List α
  | [], 0, a => [a]
  | [], i + 1, a => d :: setPad d [] i a
  | _ :: xs, 0, a => a :: xs
  | x :: xs, i + 1, a => x :: setPad d xs i a

/-! ## Primitive table access (`ltable.c`) -/

/-- Primitive get: the value stored under `key`, `nil` when there is none.  No entry has the
key `NaN` (a store under `NaN` is refused), so a read under `NaN` finds nothing. -/
def luaH_get : List (Value × Value) → Value → Value
  | [], _ => .nil
  | (k, v) :: rest, key => if k = key then v else luaH_get rest key

/-- Primitive set: storing `nil` removes the entry, an existing entry is overwritten in place,
a new entry goes to the end. -/
def luaH_set : List (Value × Value) → Value → Value → List (Value × Value)
  | [], key, val => if val = .nil then [] else [(key, val)]
  | (k, v) :: rest, key, val =>
      if k = key then (if val = .nil then luaH_set rest key .nil else (key, val) :: rest)
      else (k, v) :: luaH_set rest key val

/-- The entries that follow the entry of `key`; `none` when `key` is not in the table. -/
def entriesAfter : List (Value × Value) → Value → Option (List (Value × Value))
  | [], _ => none
  | (k, _) :: rest, key => if k = key then some rest else entriesAfter rest key

/-- Traversal step: the entry after `key` (the first entry for `nil`), `none` at the end. -/
def luaH_next (es : List (Value × Value)) (key : Value) :
    Except LuaError (Option (Value × Value)) :=
  if key = .nil then .ok es.head?
  else match entriesAfter es key with
    | some rest => .ok rest.head?
    | none => .error (.runerror "invalid key to 'next'")

/-! ## Metatables and metamethod-aware access (`ltm.c`, `lvm.c`) -/

/-- The metatable of a value: per object for tables and userdata, per type otherwise. -/
def metatableOf (L : lua_State) (o : Value) : Except LuaError (Option Nat) :=
  match o with
  | .table r => (getTable L r).map (fun h => h.metatable)
  | .userdata u => (getUdata L u).map (fun d => d.metatable)
  | v => .ok ((L.mt[ttype v]?).getD none)

/-- The raw field `event` of the metatable `mt`, `nil` when there is no metatable. -/
def tmOfMeta (L : lua_State) (mt : Option Nat) (event : String) : Except LuaError Value :=
  match mt with
  | none => .ok .nil
  | some m => (getTable L m).map (fun h => luaH_get h.entries (.str event))

/-- The raw field `event` of the metatable of `o`, `nil` when there is none. -/
def luaT_gettmbyobj (L : lua_State) (o : Value) (event : String) : Except LuaError Value :=
  match metatableOf L o with
  | .error e => .error e
  | .ok mt => tmOfMeta L mt event

/-- The loop of `luaV_gettable`, with `n` iterations left.  The metamethod is looked up only
after a primitive get found nothing. -/
def luaV_gettable_loop (L : lua_State) (key : Value) : Nat → Value → Except LuaError Value
  | 0, _ => .error (.runerror "loop in gettable")
  | n + 1, t =>
    match t with
    | .table r =>
      match getTable L r with
      | .error e => .error e
      | .ok h =>
        if luaH_get h.entries key ≠ .nil then .ok (luaH_get h.entries key)
        else
          match luaT_gettmbyobj L t "__index" with
          | .error e => .error e
          | .ok .nil => .ok .nil
          | .ok (.function _) => .error .callmeta
          | .ok tm => luaV_gettable_loop L key n tm
    | _ =>
      match luaT_gettmbyobj L t "__index" with
      | .error e => .error e
      | .ok .nil => .error (.runerror "attempt to index a value")
      | .ok (.function _) => .error .callmeta
      | .ok tm => luaV_gettable_loop L key n tm

def luaV_gettable (L : lua_State) (t key : Value) : Except LuaError Value :=
  luaV_gettable_loop L key MAXTAGLOOP t

/-- The primitive store of `val` under `key` in the table `r`, whose current content is `h`. -/
def rawstore (L : lua_State) (r : Nat) (h : Table) (key val : Value) : lua_State :=
  { L with tables := L.tables.set r { h with entries := luaH_set h.entries key val } }

/-- The loop of `luaV_settable`, with `n` iterations left.  The metamethod is looked up only
when the table has no entry for the key. -/
def luaV_settable_loop (L : lua_State) (key val : Value) : Nat → Value → Except LuaError lua_State
  | 0, _ => .error (.runerror "loop in settable")
  | n + 1, t =>
    match t with
    | .table r =>
      match getTable L r with
      | .error e => .error e
      | .ok h =>
        if key = .nil then .error (.runerror "table index is nil")
        else if key = .nan then .error (.runerror "table index is NaN")
        else if luaH_get h.entries key ≠ .nil then .ok (rawstore L r h key val)
        else
          match luaT_gettmbyobj L t "__newindex" with
          | .error e => .error e
          | .ok .nil => .ok (rawstore L r h key val)
          | .ok (.function _) => .error .callmeta
          | .ok tm => luaV_settable_loop L key val n tm
    | _ =>
      match luaT_gettmbyobj L t "__newindex" with
      | .error e => .error e
      | .ok .nil => .error (.runerror "attempt to index a value")
      | .ok (.function _) => .error .callmeta
      | .ok tm => luaV_settable_loop L key val n tm

def luaV_settable (L : lua_State) (t key val : Value) : Except LuaError lua_State :=
  luaV_settable_loop L key val MAXTAGLOOP t

/-! ## The stack and the C API (`lapi.c`) -/

/-- The position, counted from the top, of a real stack index; `none` for any other index. -/
def stackPos (L : lua_State) (idx : Int) : Option Nat :=
  if 0 < idx then
    if idx ≤ L.stack.length then some (L.stack.length - idx.toNat) else none
  else if idx ≠ 0 ∧ -idx ≤ L.stack.length then some ((-idx).toNat - 1)
  else none

/-- The value an index addresses.  `none` is `luaO_nilobject` (an acceptable index with no
value behind it); an index the API forbids is an error. -/
def index2adr (L : lua_State) (idx : Int) : Except LuaError (Option Value) :=
  if 0 < idx then
    if idx ≤ L.stack.length then .ok (L.stack[L.stack.length - idx.toNat]?) else .ok none
  else if LUA_REGISTRYINDEX < idx then
    if idx ≠ 0 ∧ -idx ≤ L.stack.length then .ok (L.stack[(-idx).toNat - 1]?)
    else .error .apicheck
  else if idx = LUA_REGISTRYINDEX then .ok (some (.table L.l_registry))
  else if idx = LUA_ENVIRONINDEX then .ok (some (.table L.env))
  else if idx = LUA_GLOBALSINDEX then .ok (some (.table L.l_gt))
  else .ok (L.upvalues[(LUA_GLOBALSINDEX - idx).toNat - 1]?)

def push (L : lua_State) (v : Value) : lua_State :=
  { L with stack := v :: L.stack }

def lua_gettop (L : lua_State) : Int := L.stack.length

def lua_settop (L : lua_State) (idx : Int) : Except LuaError lua_State :=
  if 0 ≤ idx then
    .ok { L with stack :=
      List.replicate (idx.toNat - L.stack.length) .nil ++
        L.stack.drop (L.stack.length - idx.toNat) }
  else if -(idx + 1) ≤ L.stack.length then
    .ok { L with stack := L.stack.drop (-(idx + 1)).toNat }
  else .error .apicheck

def lua_pop (L : lua_State) (n : Int) : Except LuaError lua_State :=
  lua_settop L (-n - 1)

def lua_remove (L : lua_State) (idx : Int) : Except LuaError lua_State :=
  match stackPos L idx with
  | some k => .ok { L with stack := L.stack.eraseIdx k }
  | none => .error .apicheck

def lua_pushvalue (L : lua_State) (idx : Int) : Except LuaError lua_State :=
  match index2adr L idx with
  | .error e => .error e
  | .ok o => .ok (push L (o.getD .nil))

def lua_pushnil (L : lua_State) : lua_State := push L .nil

def lua_pushinteger (L : lua_State) (n : Int) : lua_State := push L (.number n)

def lua_pushstring (L : lua_State) (s : String) : lua_State := push L (.str s)

def lua_pushliteral (L : lua_State) (s : String) : lua_State := push L (.str s)

def lua_pushlightuserdata (L : lua_State) (p : Ptr) : lua_State := push L (.lightuserdata p)

/-- The call `lua_checkstack(L, size)`, for a stack with `room` free slots above its top.  The
request is refused when it would take the stack beyond `LUAI_MAXCSTACK` slots, and then
nothing is reserved; a granted request leaves at least `size` free slots.  The result is the
answer and the room after the call. -/
def lua_checkstack (L : lua_State) (size : Int) (room : Int) : Bool × Int :=
  if LUAI_MAXCSTACK < size ∨ LUAI_MAXCSTACK < lua_gettop L + size then (false, room)
  else (true, max room size)

/-- The check of `api_incr_top` after a push: the new top must not pass the reserved slots.
With no room left the push has overrun the stack; otherwise one slot less is free. -/
def api_incr_top (room : Int) (L : lua_State) : Except LuaError (lua_State × Int) :=
  if 0 < room then .ok (L, room - 1) else .error .stackoverrun

def lua_istable (L : lua_State) (idx : Int) : Except LuaError Bool :=
  match index2adr L idx with
  | .error e => .error e
  | .ok (some (.table _)) => .ok true
  | .ok _ => .ok false

def lua_touserdata (L : lua_State) (idx : Int) : Except LuaError Ptr :=
  match index2adr L idx with
  | .error e => .error e
  | .ok (some (.userdata u)) => (getUdata L u).map (fun d => d.addr)
  | .ok (some (.lightuserdata p)) => .ok p
  | .ok _ => .ok 0

def lua_rawequal (L : lua_State) (index1 index2 : Int) : Except LuaError Bool :=
  match index2adr L index1, index2adr L index2 with
  | .error e, _ => .error e
  | _, .error e => .error e
  | .ok (some a), .ok (some b) => .ok (decide (a = b ∧ a ≠ .nan))
  | .ok _, .ok _ => .ok false

def lua_createtable (L : lua_State) (_narr _nrec : Nat) : lua_State :=
  { L with stack := .table L.tables.length :: L.stack,
           tables := L.tables ++ [{ entries := [], metatable := none }] }

def lua_newtable (L : lua_State) : lua_State := lua_createtable L 0 0

/-- Allocate a full userdata of `size` bytes.  The address `blk` of the new block is chosen by
the allocator; `0` stands for a failed allocation, which raises a memory error. -/
def lua_newuserdata (L : lua_State) (size : Nat) (blk : Ptr) : Except LuaError (Ptr × lua_State) :=
  if blk = 0 then .error .memerr
  else .ok (blk, { L with stack := .userdata L.udatas.length :: L.stack,
                          udatas := L.udatas ++
                            [{ addr := blk, size := size, metatable := none, env := L.env }] })

def lua_rawget (L : lua_State) (idx : Int) : Except LuaError lua_State :=
  match index2adr L idx, L.stack with
  | .error e, _ => .error e
  | .ok (some (.table r)), key :: rest =>
    (getTable L r).map (fun h => { L with stack := luaH_get h.entries key :: rest })
  | .ok _, _ => .error .apicheck

def lua_rawset (L : lua_State) (idx : Int) : Except LuaError lua_State :=
  match index2adr L idx, L.stack with
  | .error e, _ => .error e
  | .ok (some (.table r)), val :: key :: rest =>
    match getTable L r with
    | .error e => .error e
    | .ok h =>
      if key = .nil then .error (.runerror "table index is nil")
      else if key = .nan then .error (.runerror "table index is NaN")
      else .ok { L with stack := rest,
                        tables := L.tables.set r { h with entries := luaH_set h.entries key val } }
  | .ok _, _ => .error .apicheck

def lua_getfield (L : lua_State) (idx : Int) (k : String) : Except LuaError lua_State :=
  match index2adr L idx with
  | .error e => .error e
  | .ok none => .error .apicheck
  | .ok (some t) => (luaV_gettable L t (.str k)).map (fun v => push L v)

def lua_setfield (L : lua_State) (idx : Int) (k : String) : Except LuaError lua_State :=
  match index2adr L idx, L.stack with
  | .error e, _ => .error e
  | .ok (some t), val :: rest =>
    (luaV_settable L t (.str k) val).map (fun L1 => { L1 with stack := rest })
  | .ok _, _ => .error .apicheck

def luaL_getmetatable (L : lua_State) (tname : String) : Except LuaError lua_State :=
  lua_getfield L LUA_REGISTRYINDEX tname

/-- Push the metatable of the value at `objindex` and return 1, or push nothing and return 0. -/
def lua_getmetatable (L : lua_State) (objindex : Int) : Except LuaError (Int × lua_State) :=
  match index2adr L objindex with
  | .error e => .error e
  | .ok o =>
    match metatableOf L (o.getD .nil) with
    | .error e => .error e
    | .ok none => .ok (0, L)
    | .ok (some m) => .ok (1, push L (.table m))

def lua_setmetatable (L : lua_State) (objindex : Int) : Except LuaError lua_State :=
  match index2adr L objindex, L.stack with
  | .error e, _ => .error e
  | .ok (some obj), top :: rest =>
    match (match top with
        | .nil => Except.ok none
        | .table m => Except.ok (some m)
        | _ => Except.error LuaError.apicheck) with
    | .error e => .error e
    | .ok mt =>
      match obj with
      | .table r =>
        (getTable L r).map (fun h =>
          { L with stack := rest, tables := L.tables.set r { h with metatable := mt } })
      | .userdata u =>
        (getUdata L u).map (fun d =>
          { L with stack := rest, udatas := L.udatas.set u { d with metatable := mt } })
      | v => .ok { L with stack := rest, mt := setPad none L.mt (ttype v) mt }
  | .ok _, _ => .error .apicheck

/-- Set the environment of the value at `idx` to the table on top, and pop it.  Only the
environment of a userdata is part of the modelled state. -/
def lua_setfenv (L : lua_State) (idx : Int) : Except LuaError (Int × lua_State) :=
  match index2adr L idx, L.stack with
  | .error e, _ => .error e
  | .ok (some o), .table e :: rest =>
    match o with
    | .userdata u =>
      (getUdata L u).map (fun d =>
        (1, { L with stack := rest, udatas := L.udatas.set u { d with env := e } }))
    | .function _ => .ok (1, { L with stack := rest })
    | .thread _ => .ok (1, { L with stack := rest })
    | _ => .ok (0, { L with stack := rest })
  | .ok _, _ => .error .apicheck

/-- Pop a key and push the next key-value pair of the table at `idx`, returning 1; at the end
of the traversal push nothing and return 0. -/
def lua_next (L : lua_State) (idx : Int) : Except LuaError (Int × lua_State) :=
  match index2adr L idx, L.stack with
  | .error e, _ => .error e
  | .ok (some (.table r)), key :: rest =>
    match getTable L r with
    | .error e => .error e
    | .ok h =>
      match luaH_next h.entries key with
      | .error e => .error e
      | .ok (some (k, v)) => .ok (1, { L with stack := v :: k :: rest })
      | .ok none => .ok (0, { L with stack := rest })
  | .ok _, _ => .error .apicheck

def luaL_typerror {α : Type} (_L : lua_State) (narg : Int) (tname : String) : Except LuaError α :=
  .error (.typerror narg tname)

/-- Modelled from the spec: `abs_index` is used by `register_obj` but defined outside
`obj_lua_ev.c`.  The stack is "addressed by 1-based position from the bottom or negative
position from the top"; a position from the top is turned into the position from the bottom,
any other index is kept. -/
def abs_index (L : lua_State) (i : Int) : Int :=
  if 0 < i ∨ i ≤ LUA_REGISTRYINDEX then i else lua_gettop L + i + 1

/-! ## `obj_lua_ev.c` -/

/-- The address of the static variable `obj_registry`, used as a light-userdata key of the
Lua registry.  Only its identity matters. -/
def obj_registry : Ptr := 1

def create_obj_registry (L : lua_State) : Except LuaError lua_State := do
  let L := lua_pushlightuserdata L obj_registry
  let L := lua_newtable L
  let L := lua_createtable L 0 1
  let L := lua_pushstring L "v"
  let L ← lua_setfield L (-2) "__mode"
  let L ← lua_setmetatable L (-2)
  lua_rawset L LUA_REGISTRYINDEX

/-- The `while ( lua_next(L, -2) != 0 )` loop of `obj_count`, with `fuel` iterations allowed. -/
def obj_count_loop : Nat → lua_State → Int → Except LuaError (Int × lua_State)
  | 0, _, _ => .error .outoffuel
  | fuel + 1, L, count => do
    let (more, L) ← lua_next L (-2)
    if more ≠ 0 then
      let L ← lua_pop L 1
      obj_count_loop fuel L (count + 1)
    else pure (count, L)

def obj_count (fuel : Nat) (L : lua_State) : Except LuaError (Int × lua_State) := do
  let count : Int := 0
  let L := lua_pushlightuserdata L obj_registry
  let L ← lua_rawget L LUA_REGISTRYINDEX
  if !(← lua_istable L (-1)) then throw .assertfail
  let L := lua_pushnil L
  let (count, L) ← obj_count_loop fuel L count
  let L := lua_pushinteger L count
  pure (1, L)

def obj_new (L : lua_State) (size : Nat) (tname : String) (blk : Ptr) :
    Except LuaError (Ptr × lua_State) := do
  let (obj, L) ← lua_newuserdata L size blk
  let L := lua_newtable L
  let L := lua_newtable L
  let L ← luaL_getmetatable L tname
  if !(← lua_istable L (-1)) then throw .assertfail
  let L := lua_pushliteral L "__gc"
  let L ← lua_rawget L (-2)
  let L ← lua_setfield L (-3) "__gc"
  let L ← lua_setmetatable L (-3)
  let L ← lua_pushvalue L (-2)
  let L ← lua_setfield L (-2) "__index"
  let L ← lua_pushvalue L (-2)
  let L ← lua_setfield L (-2) "__newindex"
  let L ← lua_remove L (-2)
  let L ← lua_pushvalue L (-1)
  let (_, L) ← lua_setfenv L (-3)
  let L ← lua_setmetatable L (-2)
  pure (obj, L)

def obj_check (L : lua_State) (obj_i : Int) (tname : String) : Except LuaError (Ptr × lua_State) := do
  let udata ← lua_touserdata L obj_i
  if udata ≠ 0 then
    let (has, L) ← lua_getmetatable L obj_i
    if has ≠ 0 then
      let L := lua_pushliteral L "__index"
      let L ← lua_rawget L (-2)
      let (has, L) ← lua_getmetatable L (-1)
      if has ≠ 0 then
        let L ← luaL_getmetatable L tname
        if ← lua_rawequal L (-1) (-2) then
          let L ← lua_pop L 4
          return (udata, L)
  luaL_typerror L obj_i tname

def register_obj (L : lua_State) (obj_i : Int) (obj : Ptr) : Except LuaError lua_State := do
  let obj_i := abs_index L obj_i
  let L := lua_pushlightuserdata L obj_registry
  let L ← lua_rawget L LUA_REGISTRYINDEX
  if !(← lua_istable L (-1)) then throw .assertfail
  let L := lua_pushlightuserdata L obj
  let L ← lua_pushvalue L obj_i
  let L ← lua_rawset L (-3)
  lua_pop L 1

/-- The counting loop `for ( cur=objs; *cur; ++cur ) obj_count++` over the memory at `objs`.
The count is an unbounded integer; `push_objs` returns only for counts far below `INT_MAX`
(`push_objs_count_bound`). -/
def count_objs : List Ptr → Int → Except LuaError Int
  | [], _ => .error .outofbounds
  | p :: rest, obj_count => if p ≠ 0 then count_objs rest (obj_count + 1) else .ok obj_count

/-- The pushing loop `for ( cur=objs; *cur; ++cur )` of `push_objs`, with `room` free slots. -/
def push_objs_loop (registry_i : Int) : List Ptr → Int → lua_State → Except LuaError lua_State
  | [], _, _ => .error .outofbounds
  | p :: rest, room, L =>
    if p ≠ 0 then do
      let (L, room) ← api_incr_top room (lua_pushlightuserdata L p)
      let L ← lua_rawget L registry_i
      push_objs_loop registry_i rest room L
    else .ok L

/-- The array `objs` is the list of the pointers stored from `objs` on.  The answer of
`lua_checkstack` is dropped, as in the C code; what the call reserved is the room of the
pushes that follow. -/
def push_objs (L : lua_State) (objs : List Ptr) : Except LuaError (Int × lua_State) := do
  let obj_count ← count_objs objs 0
  if 0 = obj_count then return (obj_count, L)
  let (_, room) := lua_checkstack L (obj_count + 1) LUA_MINSTACK
  let (L, room) ← api_incr_top room (lua_pushlightuserdata L obj_registry)
  let L ← lua_rawget L LUA_REGISTRYINDEX
  if !(← lua_istable L (-1)) then throw .assertfail
  let registry_i := lua_gettop L
  let L ← push_objs_loop registry_i objs room L
  let L ← lua_remove L registry_i
  return (obj_count, L)

def push_obj (L : lua_State) (obj : Ptr) : Except LuaError (Int × lua_State) :=
  push_objs L [obj, 0]

/-! ## Observations used to state the properties -/

/-- The identity registry table: the table stored in the Lua registry under `&obj_registry`. -/
def registry_table (L : lua_State) : Option Table :=
  match L.tables[L.l_registry]? with
  | some reg =>
    match luaH_get reg.entries (.lightuserdata obj_registry) with
    | .table t => L.tables[t]?
    | _ => none
  | none => none

/-- The entries of the identity registry (none when it has not been created). -/
def registry_entries (L : lua_State) : List (Value × Value) :=
  match registry_table L with
  | some h => h.entries
  | none => []

/-- The identity registry's entry for the pointer `p`: a raw lookup under the light userdata
`p`, as `push_objs` performs it.  `nil` is the absent value. -/
def registry_entry (L : lua_State) (p : Ptr) : Value :=
  luaH_get (registry_entries L) (.lightuserdata p)

/-- The identity registry is initialised and is the table `t` of the heap: the Lua registry
holds `t` under `&obj_registry`, and `t` is a table of its own. -/
def RegistryInit (L : lua_State) (t : Nat) : Prop :=
  (L.tables[L.l_registry]?).map (fun reg => luaH_get reg.entries (.lightuserdata obj_registry))
      = some (.table t) ∧
    t ≠ L.l_registry ∧ t < L.tables.length

instance (L : lua_State) (t : Nat) : Decidable (RegistryInit L t) := by
  unfold RegistryInit; infer_instance

/-- The representation invariant of a table: distinct keys, no `nil` key, no `nil` value. -/
def TableWF (es : List (Value × Value)) : Prop :=
  (es.map Prod.fst).Nodup ∧ Value.nil ∉ es.map Prod.fst ∧ Value.nil ∉ es.map Prod.snd

instance (es : List (Value × Value)) : Decidable (TableWF es) := by
  unfold TableWF; infer_instance

/-- A sequence of `register_obj` calls, each given as a stack index and a pointer. -/
def register_objs : lua_State → List (Int × Ptr) → Except LuaError lua_State
  | L, [] => .ok L
  | L, (i, p) :: rest =>
    match register_obj L i p with
    | .error e => .error e
    | .ok L1 => register_objs L1 rest

/-- The result of a call that returned, `d` for a call that failed. -/
def okOr {ε α : Type} (d : α) : Except ε α → α
  | .ok a => a
  | .error _ => d

/-- A small state used to exercise the definitions: the Lua registry is table 0 and names two
type descriptors, `T` (table 2, with a `__gc` function, `__index` pointing at itself and a
field `name`) and `U` (table 3, whose metatable is the descriptor of `T`); table 1 is the
globals table. -/
def exState : lua_State :=
  { stack := [],
    tables := [⟨[(.str "T", .table 2), (.str "U", .table 3)], none⟩, ⟨[], none⟩,
      ⟨[(.str "__gc", .function 7), (.str "__index", .table 2), (.str "name", .str "T")], none⟩,
      ⟨[], some 2⟩],
    udatas := [], l_registry := 0, l_gt := 1, env := 1, upvalues := [], mt := [] }

/-- The state `exState` after `create_obj_registry`: the identity registry is table 4. -/
def exInit : lua_State := okOr exState (create_obj_registry exState)

/-- The state `exInit` after `obj_new(16, "T")` returned the block at address 4096: the handle
is userdata 0, on top of the stack. -/
def exObj : lua_State := okOr exInit ((obj_new exInit 16 "T" 4096).map Prod.snd)

/-- The state `exObj` after a second `obj_new(16, "T")`, returning the block at 4112: the
stack holds the second handle (userdata 1) above the first. -/
def exObj2 : lua_State := okOr exObj ((obj_new exObj 16 "T" 4112).map Prod.snd)

/-- The state `exObj` after the handle on top was registered under the `NULL` pointer. -/
def exRegNull : lua_State := okOr exObj (register_obj exObj (-1) 0)

/-- The state `exObj` after the handle on top was registered under its block address 4096. -/
def exReg : lua_State := okOr exObj (register_obj exObj (-1) 4096)

/-- The type name `tname` is registered, with the table `d` of the heap as its descriptor. -/
def Registered (L : lua_State) (tname : String) (d : Nat) : Prop :=
  (L.tables[L.l_registry]?).map (fun reg => luaH_get reg.entries (.str tname))
      = some (.table d) ∧
    d < L.tables.length

instance (L : lua_State) (tname : String) (d : Nat) : Decidable (Registered L tname d) := by
  unfold Registered; infer_instance

/-- The state `exState` with two values on the stack, before the identity registry exists. -/
def exPre : lua_State := { exState with stack := [.number 2, .number 1] }

/-- A state in which the Lua registry names one and the same descriptor (table 2) under the
two type names `T` and `U`. -/
def exAlias : lua_State :=
  { stack := [],
    tables := [⟨[(.str "T", .table 2), (.str "U", .table 2)], none⟩, ⟨[], none⟩,
      ⟨[(.str "__gc", .function 7)], none⟩],
    udatas := [], l_registry := 0, l_gt := 1, env := 1, upvalues := [], mt := [] }

/-- The state `exAlias` after `obj_new(16, "U")` returned the block at address 4096. -/
def exAliasObj : lua_State := okOr exAlias ((obj_new exAlias 16 "U" 4096).map Prod.snd)

/-- The value `v` does not refer to a table or a userdata outside a heap of `nt` tables and
`nu` userdata. -/
def ValueClosed (nt nu : Nat) : Value → Prop
  | .table r => r < nt
  | .userdata u => u < nu
  | _ => True

instance (nt nu : Nat) (v : Value) : Decidable (ValueClosed nt nu v) := by
  cases v <;> unfold ValueClosed <;> infer_instance

/-- No dangling reference in the heap: every metatable link (of a table, of a userdata, of a
basic type) and every value stored in a table refers to an object of the heap. -/
def HeapClosed (L : lua_State) : Prop :=
  (∀ h ∈ L.tables, (∀ mt ∈ h.metatable, mt < L.tables.length) ∧
      ∀ kv ∈ h.entries, ValueClosed L.tables.length L.udatas.length kv.2) ∧
    (∀ ud ∈ L.udatas, ∀ mt ∈ ud.metatable, mt < L.tables.length) ∧
    (∀ o ∈ L.mt, ∀ mt ∈ o, mt < L.tables.length)

instance (L : lua_State) : Decidable (HeapClosed L) := by
  unfold HeapClosed; infer_instance

/-- A state whose descriptor for `T` (table 2) redirects both reads and writes to itself. -/
def exNewindex : lua_State :=
  { stack := [],
    tables := [⟨[(.str "T", .table 2)], none⟩, ⟨[], none⟩,
      ⟨[(.str "__index", .table 2), (.str "__newindex", .table 2)], none⟩],
    udatas := [], l_registry := 0, l_gt := 1, env := 1, upvalues := [], mt := [] }

/-- The state `exNewindex` after `obj_new(16, "T")` returned the block at 4096. -/
def exNewindex1 : lua_State := okOr exNewindex ((obj_new exNewindex 16 "T" 4096).map Prod.snd)

/-- The state `exNewindex1` after a second `obj_new(16, "T")`, returning the block at 4112:
the handles are userdata 0 and, on top of the stack, userdata 1. -/
def exNewindex2 : lua_State := okOr exNewindex1 ((obj_new exNewindex1 16 "T" 4112).map Prod.snd)

/-- The state `exNewindex2` after the script-level write `a.x = 1` on the first handle. -/
def exNewindex3 : lua_State :=
  okOr exNewindex2 (luaV_settable exNewindex2 (.userdata 0) (.str "x") (.number 1))

/-- The state `exObj2` after the script-level write `a.name = "T"` on the first handle. -/
def exObj2Name : lua_State :=
  okOr exObj2 (luaV_settable exObj2 (.userdata 0) (.str "name") (.str "T"))

/-- A state whose descriptor for `T` (table 2) answers reads with a function. -/
def exFn : lua_State :=
  { stack := [],
    tables := [⟨[(.str "T", .table 2)], none⟩, ⟨[], none⟩,
      ⟨[(.str "__index", .function 9)], none⟩],
    udatas := [], l_registry := 0, l_gt := 1, env := 1, upvalues := [], mt := [] }

/-- The state `exFn` after `obj_new(16, "T")` returned the block at 4096. -/
def exFn1 : lua_State := okOr exFn ((obj_new exFn 16 "T" 4096).map Prod.snd)

/-- The state `exFn1` after a second `obj_new(16, "T")`, returning the block at 4112. -/
def exFn2 : lua_State := okOr exFn1 ((obj_new exFn1 16 "T" 4112).map Prod.snd)

/-- The state `exFn2` after the script-level write `a.x = 1` on the first handle. -/
def exFn3 : lua_State :=
  okOr exFn2 (luaV_settable exFn2 (.userdata 0) (.str "x") (.number 1))

/-! # Properties -/

/-! ## Primitive table access -/

theorem luaH_get_set_self (es : List (Value × Value)) (k v : Value) :
    luaH_get (luaH_set es k v) k = v := by
  induction es with
  | nil => by_cases hv : v = .nil <;> simp [luaH_set, luaH_get, hv]
  | cons e rest ih =>
    obtain ⟨k1, v1⟩ := e
    by_cases hk : k1 = k
    · by_cases hv : v = .nil
      · subst hv; simpa [luaH_set, hk] using ih
      · simp [luaH_set, luaH_get, hk, hv]
    · simp [luaH_set, luaH_get, hk, ih]

theorem luaH_get_set_other (es : List (Value × Value)) (k v q : Value) (hq : q ≠ k) :
    luaH_get (luaH_set es k v) q = luaH_get es q := by
  induction es generalizing v with
  | nil => by_cases hv : v = .nil <;> simp [luaH_set, luaH_get, hv, Ne.symm hq]
  | cons e rest ih =>
    obtain ⟨k1, v1⟩ := e
    by_cases hk : k1 = k
    · by_cases hv : v = .nil
      · subst hv; subst hk
        simp [luaH_set, luaH_get, Ne.symm hq, ih]
      · subst hk
        simp [luaH_set, luaH_get, hv, Ne.symm hq]
    · by_cases hk1 : k1 = q
      · subst hk1; simp [luaH_set, luaH_get, hk]
      · simp [luaH_set, luaH_get, hk, hk1, ih]

/-! ## Stack indices -/

theorem index2adr_neg1 (a : Value) (s : List Value) (tbs uds r g e ups m) :
    index2adr ⟨a :: s, tbs, uds, r, g, e, ups, m⟩ (-1) = .ok (some a) := by
  simp [index2adr, LUA_REGISTRYINDEX]

theorem index2adr_neg2 (a b : Value) (s : List Value) (tbs uds r g e ups m) :
    index2adr ⟨a :: b :: s, tbs, uds, r, g, e, ups, m⟩ (-2) = .ok (some b) := by
  simp [index2adr, LUA_REGISTRYINDEX]; omega

theorem index2adr_neg3 (a b c : Value) (s : List Value) (tbs uds r g e ups m) :
    index2adr ⟨a :: b :: c :: s, tbs, uds, r, g, e, ups, m⟩ (-3) = .ok (some c) := by
  simp [index2adr, LUA_REGISTRYINDEX]; omega

theorem index2adr_registry (s : List Value) (tbs uds r g e ups m) :
    index2adr ⟨s, tbs, uds, r, g, e, ups, m⟩ LUA_REGISTRYINDEX = .ok (some (.table r)) := by
  simp [index2adr, LUA_REGISTRYINDEX]

/-- The index computed by `abs_index` still addresses the same value after two pushes. -/
theorem index2adr_abs_index (x y : Value) (o : Option Value) (s : List Value)
    (tbs tbs2 uds r g e ups m) (i : Int)
    (h : index2adr ⟨s, tbs, uds, r, g, e, ups, m⟩ i = .ok o)
    (hok : o ≠ none ∨ i ≤ LUA_REGISTRYINDEX) :
    index2adr ⟨x :: y :: s, tbs2, uds, r, g, e, ups, m⟩
      (abs_index ⟨s, tbs, uds, r, g, e, ups, m⟩ i) = .ok o := by
  simp only [index2adr, abs_index, lua_gettop, LUA_REGISTRYINDEX, LUA_ENVIRONINDEX,
    LUA_GLOBALSINDEX] at h hok ⊢
  by_cases h1 : 0 < i
  · simp only [h1, if_true, true_or] at h ⊢
    by_cases h2 : i ≤ (s.length : Int)
    · simp only [h2, if_true] at h
      have h3 : i ≤ ((x :: y :: s).length : Int) := by simp; omega
      simp only [h3, if_true]
      have h4 : (x :: y :: s).length - i.toNat = (s.length - i.toNat) + 2 := by
        simp; omega
      rw [h4]; simpa using h
    · simp only [h2, if_false] at h
      cases h
      rcases hok with hok | hok
      · exact absurd rfl hok
      · omega
  · by_cases h2 : i ≤ -10000
    · have h3 : ¬ (-10000 < i) := by omega
      simp only [h1, h2, h3, if_false, if_true, or_true] at h ⊢
      exact h
    · have h3 : -10000 < i := by omega
      simp only [h1, h2, h3, if_false, if_true, or_false] at h ⊢
      by_cases h4 : i ≠ 0 ∧ -i ≤ (s.length : Int)
      · simp only [h4, and_self, if_true, ne_eq, not_false_eq_true] at h
        have h5 : 0 < (s.length : Int) + i + 1 := by omega
        have h6 : (s.length : Int) + i + 1 ≤ ((x :: y :: s).length : Int) := by simp; omega
        simp only [h5, h6, if_true]
        have h7 : (x :: y :: s).length - ((s.length : Int) + i + 1).toNat
            = ((-i).toNat - 1) + 2 := by simp; omega
        rw [h7]; simpa using h
      · simp [h4] at h

/-- A real stack index addresses a value, or falls in the range of the pseudo-indices. -/
theorem index2adr_valid (L : lua_State) (i : Int)
    (hi : (1 ≤ i ∧ i ≤ L.stack.length) ∨ (-(L.stack.length : Int) ≤ i ∧ i ≤ -1)) :
    ∃ o, index2adr L i = .ok o ∧ (o ≠ none ∨ i ≤ LUA_REGISTRYINDEX) := by
  rcases hi with ⟨h1, h2⟩ | ⟨h1, h2⟩
  · have h3 : 0 < i := by omega
    have h4 : L.stack.length - i.toNat < L.stack.length := by omega
    refine ⟨some L.stack[L.stack.length - i.toNat], ?_, Or.inl (by simp)⟩
    simp [index2adr, h3, h2, List.getElem?_eq_getElem h4]
  · have h3 : ¬ (0 < i) := by omega
    have h5 : (-i).toNat - 1 < L.stack.length := by omega
    have h6 : i ≠ 0 ∧ -i ≤ (L.stack.length : Int) := ⟨by omega, by omega⟩
    by_cases h4 : LUA_REGISTRYINDEX < i
    · refine ⟨some L.stack[(-i).toNat - 1], ?_, Or.inl (by simp)⟩
      simp only [index2adr, h3, h4, h6, and_self, if_true, if_false, ne_eq, not_false_eq_true,
        List.getElem?_eq_getElem h5]
    · simp only [index2adr, h3, h4, if_false]
      have h7 : i ≤ LUA_REGISTRYINDEX := by omega
      split
      · exact ⟨_, rfl, Or.inr h7⟩
      · split
        · exact ⟨_, rfl, Or.inr h7⟩
        · split
          · exact ⟨_, rfl, Or.inr h7⟩
          · exact ⟨_, rfl, Or.inr h7⟩

theorem registryInit_tables {stk tbs uds r g e ups m t}
    (h : RegistryInit ⟨stk, tbs, uds, r, g, e, ups, m⟩ t) :
    ∃ reg h1, tbs[r]? = some reg ∧
      luaH_get reg.entries (.lightuserdata obj_registry) = .table t ∧
      tbs[t]? = some h1 ∧ t ≠ r := by
  obtain ⟨h1, h2, h3⟩ := h
  simp only [Option.map_eq_some'] at h1
  obtain ⟨reg, hr, hg⟩ := h1
  exact ⟨reg, tbs[t], hr, hg, List.getElem?_eq_getElem h3, h2⟩

/-- What `register_obj` computes: the entry of `obj` in the identity registry table is set to
the value at `obj_i`; nothing else changes. -/
theorem register_obj_eq (stk tbs uds r g e ups m) (t : Nat) (h1 : Table) (i : Int) (p : Ptr)
    (o : Option Value)
    (hinit : RegistryInit ⟨stk, tbs, uds, r, g, e, ups, m⟩ t)
    (ht : tbs[t]? = some h1)
    (hv : index2adr ⟨stk, tbs, uds, r, g, e, ups, m⟩ i = .ok o)
    (hok : o ≠ none ∨ i ≤ LUA_REGISTRYINDEX) :
    register_obj ⟨stk, tbs, uds, r, g, e, ups, m⟩ i p =
      .ok ⟨stk, tbs.set t { h1 with entries := luaH_set h1.entries (.lightuserdata p) (o.getD .nil) },
        uds, r, g, e, ups, m⟩ := by
  obtain ⟨reg, h1', hr, hg, ht', hne⟩ := registryInit_tables hinit
  rw [ht] at ht'; cases ht'
  have hidx := index2adr_abs_index (.lightuserdata p) (.table t) o stk tbs tbs uds r g e ups m i
    hv hok
  simp [register_obj, lua_pushlightuserdata, push, lua_rawget, index2adr_registry, getTable, hr,
    hg, lua_istable, index2adr_neg1, lua_pushvalue, hidx, lua_rawset, index2adr_neg3, ht,
    lua_pop, lua_settop, Except.map, bind, Except.bind, pure, Except.pure]

theorem registry_entries_of_init {stk tbs uds r g e ups m t} {h1 : Table}
    (hinit : RegistryInit ⟨stk, tbs, uds, r, g, e, ups, m⟩ t) (ht : tbs[t]? = some h1) :
    registry_entries ⟨stk, tbs, uds, r, g, e, ups, m⟩ = h1.entries := by
  obtain ⟨reg, h1', hr, hg, ht', hne⟩ := registryInit_tables hinit
  simp [registry_entries, registry_table, hr, hg, ht]

/-- Overwriting the identity registry table keeps the registry initialised. -/
theorem registryInit_set {stk stk2 tbs uds r g e ups m t} (x : Table)
    (hinit : RegistryInit ⟨stk, tbs, uds, r, g, e, ups, m⟩ t) :
    RegistryInit ⟨stk2, tbs.set t x, uds, r, g, e, ups, m⟩ t := by
  obtain ⟨h1, h2, h3⟩ := hinit
  refine ⟨?_, h2, by simpa using h3⟩
  simp only at h1 h2 ⊢
  rw [List.getElem?_set_ne h2]
  exact h1

/-- The state after `register_obj`, for an index that addresses a value. -/
theorem register_obj_ok (L : lua_State) (t : Nat) (i : Int) (p : Ptr) (o : Option Value)
    (hinit : RegistryInit L t) (hv : index2adr L i = .ok o)
    (hok : o ≠ none ∨ i ≤ LUA_REGISTRYINDEX) :
    ∃ L1, register_obj L i p = .ok L1 ∧ L1.stack = L.stack ∧ RegistryInit L1 t ∧
      L1.l_registry = L.l_registry ∧
      registry_entries L1 = luaH_set (registry_entries L) (.lightuserdata p) (o.getD .nil) ∧
      (∀ j, index2adr L1 j = index2adr L j) := by
  obtain ⟨stk, tbs, uds, r, g, e, ups, m⟩ := L
  obtain ⟨reg, h1, hr, hg, ht, hne⟩ := registryInit_tables hinit
  refine ⟨_, register_obj_eq stk tbs uds r g e ups m t h1 i p o hinit ht hv hok, rfl,
    registryInit_set _ hinit, rfl, ?_, fun j => rfl⟩
  have ht2 : (tbs.set t { h1 with entries := luaH_set h1.entries (.lightuserdata p) (o.getD .nil) })[t]?
      = some { h1 with entries := luaH_set h1.entries (.lightuserdata p) (o.getD .nil) } := by
    have := hinit.2.2
    simp only at this
    simp [List.getElem?_set_self, this]
  rw [registry_entries_of_init (registryInit_set _ hinit) ht2, registry_entries_of_init hinit ht]

/-- C8: `register_obj` is stack-neutral and local.  For a valid stack index `obj_i` (positive,
or negative relative to the top) and any pointer `p`, the call returns, leaves the stack as it
was, sets the identity registry's entry for `p` to the value that was at `obj_i`, and leaves
the entry of every other pointer unchanged. -/
theorem c8_register_obj_stack_neutral_local (L : lua_State) (t : Nat) (obj_i : Int) (p : Ptr)
    (hinit : RegistryInit L t)
    (hi : (1 ≤ obj_i ∧ obj_i ≤ L.stack.length) ∨
      (-(L.stack.length : Int) ≤ obj_i ∧ obj_i ≤ -1)) :
    ∃ o L1, index2adr L obj_i = .ok o ∧ register_obj L obj_i p = .ok L1 ∧
      L1.stack = L.stack ∧
      registry_entry L1 p = o.getD .nil ∧
      ∀ q, q ≠ p → registry_entry L1 q = registry_entry L q := by
  obtain ⟨o, ho, hok⟩ := index2adr_valid L obj_i hi
  obtain ⟨L1, h1, h2, _, _, h3, _⟩ := register_obj_ok L t obj_i p o hinit ho hok
  refine ⟨o, L1, ho, h1, h2, ?_, ?_⟩
  · simp [registry_entry, h3, luaH_get_set_self]
  · intro q hq
    have : Value.lightuserdata q ≠ Value.lightuserdata p := by simpa using hq
    simp [registry_entry, h3, luaH_get_set_other _ _ _ _ this]

/-! ## `push_objs` -/

theorem count_objs_eq (ps rest : List Ptr) (c : Int) (hnz : ∀ p ∈ ps, p ≠ 0) :
    count_objs (ps ++ 0 :: rest) c = .ok (c + ps.length) := by
  induction ps generalizing c with
  | nil => simp [count_objs]
  | cons p ps ih =>
    have hp : p ≠ 0 := hnz p (by simp)
    have := ih (c + 1) (fun q hq => hnz q (by simp [hq]))
    simp [count_objs, hp, this]; omega

/-- A positive index addresses the slot that many places above the bottom. -/
theorem index2adr_pos (pre s : List Value) (v : Value) (tbs uds r g e ups m) :
    index2adr ⟨pre ++ v :: s, tbs, uds, r, g, e, ups, m⟩ ((s.length : Int) + 1) = .ok (some v) := by
  have h1 : (0 : Int) < (s.length : Int) + 1 := by omega
  have h2 : (s.length : Int) + 1 ≤ ((pre ++ v :: s).length : Int) := by simp
  have h3 : (pre ++ v :: s).length - ((s.length : Int) + 1).toNat = pre.length := by
    simp
  simp only [index2adr, h1, h2, if_true, h3]
  rw [List.getElem?_append_right (le_refl _)]
  simp

theorem push_objs_loop_eq (ps rest : List Ptr) (acc s : List Value) (t : Nat) (h1 : Table)
    (tbs uds r g e ups m) (room : Int) (ht : tbs[t]? = some h1) (hnz : ∀ p ∈ ps, p ≠ 0)
    (hroom : (ps.length : Int) ≤ room) :
    push_objs_loop ((s.length : Int) + 1) (ps ++ 0 :: rest) room
        ⟨acc ++ .table t :: s, tbs, uds, r, g, e, ups, m⟩ =
      .ok ⟨(ps.map (fun p => luaH_get h1.entries (.lightuserdata p))).reverse ++ acc ++
        .table t :: s, tbs, uds, r, g, e, ups, m⟩ := by
  induction ps generalizing acc room with
  | nil => simp [push_objs_loop]
  | cons p ps ih =>
    have hp : p ≠ 0 := hnz p (by simp)
    have hpos : 0 < room := by simp only [List.length_cons, Nat.cast_add, Nat.cast_one] at hroom; omega
    have hidx := index2adr_pos (.lightuserdata p :: acc) s (.table t) tbs uds r g e ups m
    have := ih (luaH_get h1.entries (.lightuserdata p) :: acc) (room - 1)
      (fun q hq => hnz q (by simp [hq]))
      (by simp only [List.length_cons, Nat.cast_add, Nat.cast_one] at hroom; omega)
    simp only [List.cons_append] at hidx this
    simp [push_objs_loop, hp, lua_pushlightuserdata, push, api_incr_top, hpos, lua_rawget, hidx,
      getTable, ht, Except.map, bind, Except.bind, this]

/-- With fewer free slots than pointers the pushing loop overruns the stack. -/
theorem push_objs_loop_overrun (ps rest : List Ptr) (acc s : List Value) (t : Nat) (h1 : Table)
    (tbs uds r g e ups m) (room : Int) (ht : tbs[t]? = some h1) (hnz : ∀ p ∈ ps, p ≠ 0)
    (h0 : 0 ≤ room) (hroom : room < (ps.length : Int)) :
    push_objs_loop ((s.length : Int) + 1) (ps ++ 0 :: rest) room
        ⟨acc ++ .table t :: s, tbs, uds, r, g, e, ups, m⟩ = .error .stackoverrun := by
  induction ps generalizing acc room with
  | nil => simp at hroom; omega
  | cons p ps ih =>
    have hp : p ≠ 0 := hnz p (by simp)
    by_cases hpos : 0 < room
    · have hidx := index2adr_pos (.lightuserdata p :: acc) s (.table t) tbs uds r g e ups m
      have := ih (luaH_get h1.entries (.lightuserdata p) :: acc) (room - 1)
        (fun q hq => hnz q (by simp [hq])) (by omega)
        (by simp only [List.length_cons, Nat.cast_add, Nat.cast_one] at hroom; omega)
      simp only [List.cons_append] at hidx this
      simp [push_objs_loop, hp, lua_pushlightuserdata, push, api_incr_top, hpos, lua_rawget,
        hidx, getTable, ht, Except.map, bind, Except.bind, this]
    · simp [push_objs_loop, hp, lua_pushlightuserdata, push, api_incr_top, hpos, bind,
        Except.bind]

theorem lua_remove_pos (pre s : List Value) (v : Value) (tbs uds r g e ups m) :
    lua_remove ⟨pre ++ v :: s, tbs, uds, r, g, e, ups, m⟩ ((s.length : Int) + 1) =
      .ok ⟨pre ++ s, tbs, uds, r, g, e, ups, m⟩ := by
  have h1 : (0 : Int) < (s.length : Int) + 1 := by omega
  have h2 : (s.length : Int) + 1 ≤ ((pre ++ v :: s).length : Int) := by simp
  have h3 : (pre ++ v :: s).length - ((s.length : Int) + 1).toNat = pre.length := by
    simp
  simp only [lua_remove, stackPos, h1, h2, if_true, h3]
  simp [List.eraseIdx_append_of_length_le]

/-- The room `lua_checkstack` leaves: the slots asked for are there when the stack may grow by
them, or when they fit the room there was. -/
theorem lua_checkstack_room (L : lua_State) (size room : Int)
    (h : (L.stack.length : Int) + size ≤ LUAI_MAXCSTACK ∨ size ≤ room) :
    size ≤ (lua_checkstack L size room).2 := by
  unfold lua_checkstack lua_gettop
  split
  · rename_i href
    rcases h with h | h
    · exfalso
      rcases href with href | href <;> omega
    · exact h
  · exact le_max_right _ _

/-- A refused request leaves the room as it was. -/
theorem lua_checkstack_refused (L : lua_State) (size room : Int)
    (h : LUAI_MAXCSTACK < (L.stack.length : Int) + size) :
    lua_checkstack L size room = (false, room) := by
  simp [lua_checkstack, lua_gettop, h]

/-- What `push_objs` computes on a `NULL`-terminated array of non-null pointers, when the stack
has room for them. -/
theorem push_objs_eq (L : lua_State) (t : Nat) (ps rest : List Ptr)
    (hinit : RegistryInit L t) (hnz : ∀ p ∈ ps, p ≠ 0)
    (hroom : (L.stack.length : Int) + ps.length + 1 ≤ LUAI_MAXCSTACK ∨
      (ps.length : Int) + 1 ≤ LUA_MINSTACK) :
    push_objs L (ps ++ 0 :: rest) =
      .ok ((ps.length : Int),
        { L with stack := (ps.map (registry_entry L)).reverse ++ L.stack }) := by
  have hrm := lua_checkstack_room L ((ps.length : Int) + 1) LUA_MINSTACK (by
    rcases hroom with h | h
    · exact Or.inl (by omega)
    · exact Or.inr h)
  obtain ⟨stk, tbs, uds, r, g, e, ups, m⟩ := L
  obtain ⟨reg, h1, hr, hg, ht, hne⟩ := registryInit_tables hinit
  have hent : registry_entry ⟨stk, tbs, uds, r, g, e, ups, m⟩ =
      fun p => luaH_get h1.entries (.lightuserdata p) := by
    funext p; simp [registry_entry, registry_entries_of_init hinit ht]
  cases ps with
  | nil => simp [push_objs, count_objs, bind, Except.bind, pure, Except.pure]
  | cons p ps =>
    have hc := count_objs_eq (p :: ps) rest 0 hnz
    generalize hcs : lua_checkstack ⟨stk, tbs, uds, r, g, e, ups, m⟩
      (((p :: ps).length : Int) + 1) LUA_MINSTACK = cs at hrm
    obtain ⟨ans, room⟩ := cs
    simp only [List.length_cons, Nat.cast_add, Nat.cast_one] at hrm hcs
    have hpos : 0 < room := by omega
    have hl := push_objs_loop_eq (p :: ps) rest [] stk t h1 tbs uds r g e ups m (room - 1) ht hnz
      (by simp only [List.length_cons, Nat.cast_add, Nat.cast_one]; omega)
    have hrm2 := lua_remove_pos
      (((p :: ps).map (fun p => luaH_get h1.entries (.lightuserdata p))).reverse) stk (.table t)
      tbs uds r g e ups m
    have h0 : ¬ ((0 : Int) = (ps.length : Int) + 1) := by omega
    simp only [List.nil_append, List.append_nil] at hl
    simp only [push_objs, hc, bind, Except.bind, lua_pushlightuserdata, push,
      lua_rawget, index2adr_registry, getTable, hr, hg, Except.map, lua_istable, index2adr_neg1,
      lua_gettop, List.length_cons, Nat.cast_add, Nat.cast_one, hent, Int.zero_add, hcs,
      api_incr_top, hpos, if_true]
    simp only [List.length_cons, Nat.cast_add, Nat.cast_one, List.cons_append] at hl hrm2
    simp only [List.cons_append, hl]
    simp only [List.map_cons, List.reverse_cons, List.append_assoc, List.singleton_append]
      at hrm2 ⊢
    simp [hrm2, pure, Except.pure, h0]

/-- Where `lua_checkstack` refuses the request and the array does not fit the slots there
are without asking, `push_objs` overruns the stack. -/
theorem push_objs_overrun (L : lua_State) (t : Nat) (ps rest : List Ptr)
    (hinit : RegistryInit L t) (hnz : ∀ p ∈ ps, p ≠ 0)
    (href : LUAI_MAXCSTACK < (L.stack.length : Int) + ps.length + 1)
    (hbig : LUA_MINSTACK < (ps.length : Int) + 1) :
    push_objs L (ps ++ 0 :: rest) = .error .stackoverrun := by
  have hcs := lua_checkstack_refused L ((ps.length : Int) + 1) LUA_MINSTACK (by omega)
  obtain ⟨stk, tbs, uds, r, g, e, ups, m⟩ := L
  obtain ⟨reg, h1, hr, hg, ht, hne⟩ := registryInit_tables hinit
  have hc := count_objs_eq ps rest 0 hnz
  have h0 : ¬ ((0 : Int) = (ps.length : Int)) := by
    simp only [LUA_MINSTACK] at hbig; omega
  have hl := push_objs_loop_overrun ps rest [] stk t h1 tbs uds r g e ups m (LUA_MINSTACK - 1)
    ht hnz (by decide) (by simp only [LUA_MINSTACK] at hbig ⊢; omega)
  simp only [List.nil_append] at hl
  have hpos : (0 : Int) < LUA_MINSTACK := by decide
  simp only [push_objs, hc, bind, Except.bind, lua_pushlightuserdata, push,
    lua_rawget, index2adr_registry, getTable, hr, hg, Except.map, lua_istable, index2adr_neg1,
    lua_gettop, Int.zero_add, hcs, api_incr_top, hpos, if_true]
  simp [hl, pure, Except.pure, h0]

/-- A pushing loop that returns has pushed no more values than there was room for. -/
theorem push_objs_loop_bound (registry_i : Int) (objs : List Ptr) :
    ∀ (room c c1 : Int) (L L1 : lua_State), 0 ≤ room → count_objs objs c = .ok c1 →
      push_objs_loop registry_i objs room L = .ok L1 → c1 - c ≤ room := by
  induction objs with
  | nil => intro room c c1 L L1 _ hc _; simp [count_objs] at hc
  | cons p rest ih =>
    intro room c c1 L L1 h0 hc hl
    by_cases hp : p = 0
    · simp only [count_objs, hp, ne_eq, not_true_eq_false, if_false, Except.ok.injEq] at hc
      omega
    · simp only [count_objs, ne_eq, hp, not_false_eq_true, if_true] at hc
      simp only [push_objs_loop, ne_eq, hp, not_false_eq_true, if_true, api_incr_top, bind,
        Except.bind] at hl
      by_cases hpos : 0 < room
      · simp only [hpos, if_true] at hl
        cases hr : lua_rawget (lua_pushlightuserdata L p) registry_i with
        | error err => simp [hr, pure, Except.pure] at hl
        | ok L2 =>
          simp only [hr] at hl
          have := ih (room - 1) (c + 1) c1 L2 L1 (by omega) hc hl
          omega
      · simp [hpos] at hl

/-- The count `push_objs` returns is at most `LUAI_MAXCSTACK`: the unbounded integer that
counts the array never stands for a C `int` that has overflowed. -/
theorem push_objs_count_bound (L L1 : lua_State) (objs : List Ptr) (n : Int)
    (h : push_objs L objs = .ok (n, L1)) : n ≤ LUAI_MAXCSTACK := by
  simp only [push_objs, bind, Except.bind] at h
  cases hc : count_objs objs 0 with
  | error err => simp [hc] at h
  | ok c =>
    simp only [hc] at h
    by_cases h0 : 0 = c
    · simp only [h0, if_true, pure, Except.pure, Except.ok.injEq, Prod.mk.injEq] at h
      rw [← h.1, ← h0]; decide
    · simp only [h0, if_false] at h
      generalize hcs : lua_checkstack L (c + 1) LUA_MINSTACK = cs at h
      obtain ⟨ans, room⟩ := cs
      simp only [api_incr_top] at h
      by_cases hpos : 0 < room
      · simp only [hpos, if_true] at h
        cases hr : lua_rawget (lua_pushlightuserdata L obj_registry) LUA_REGISTRYINDEX with
        | error err => simp [hr, pure, Except.pure] at h
        | ok L2 =>
          simp only [hr] at h
          cases hi : lua_istable L2 (-1) with
          | error err => simp [hi, pure, Except.pure] at h
          | ok bt =>
            cases bt with
            | false => simp [hi, throw, throwThe, MonadExceptOf.throw, pure, Except.pure] at h
            | true =>
              simp only [hi] at h
              cases hl : push_objs_loop (lua_gettop L2) objs (room - 1) L2 with
              | error err => simp [hl, pure, Except.pure] at h
              | ok L3 =>
                have hb := push_objs_loop_bound _ objs (room - 1) 0 c L2 L3 (by omega) hc hl
                simp only [hl] at h
                cases hrm : lua_remove L3 (lua_gettop L2) with
                | error err => simp [hrm, pure, Except.pure] at h
                | ok L4 =>
                  simp only [hrm, pure, Except.pure, Bool.not_true, Bool.false_eq_true,
                    if_false, Except.ok.injEq, Prod.mk.injEq] at h
                  rw [← h.1]
                  simp only [lua_checkstack] at hcs
                  split at hcs
                  · simp only [Prod.mk.injEq] at hcs
                    simp only [LUA_MINSTACK, LUAI_MAXCSTACK] at *
                    omega
                  · rename_i hgr
                    simp only [Prod.mk.injEq] at hcs
                    simp only [LUA_MINSTACK, LUAI_MAXCSTACK, not_or, not_lt] at *
                    omega
      · simp [hpos, pure, Except.pure] at h

theorem luaH_set_mem (es : List (Value × Value)) (k v : Value) (x : Value × Value)
    (hx : x ∈ luaH_set es k v) : x ∈ es ∨ (x = (k, v) ∧ v ≠ .nil) := by
  induction es generalizing v with
  | nil =>
    by_cases hv : v = .nil
    · simp [luaH_set, hv] at hx
    · simp [luaH_set, hv] at hx; exact Or.inr ⟨hx, hv⟩
  | cons e rest ih =>
    obtain ⟨k1, v1⟩ := e
    by_cases hk : k1 = k
    · by_cases hv : v = .nil
      · subst hv
        simp only [luaH_set, hk, if_true] at hx
        rcases ih _ hx with h | h
        · exact Or.inl (List.mem_cons_of_mem _ h)
        · exact absurd rfl h.2
      · simp only [luaH_set, hk, hv, if_true, if_false, List.mem_cons] at hx
        rcases hx with h | h
        · exact Or.inr ⟨h, hv⟩
        · exact Or.inl (List.mem_cons_of_mem _ h)
    · simp only [luaH_set, hk, if_false, List.mem_cons] at hx
      rcases hx with h | h
      · exact Or.inl (by simp [h])
      · rcases ih _ h with h | h
        · exact Or.inl (List.mem_cons_of_mem _ h)
        · exact Or.inr h

theorem luaH_set_keys_nil (es : List (Value × Value)) (k : Value) :
    (luaH_set es k .nil).map Prod.fst = (es.map Prod.fst).filter (fun x => x ≠ k) := by
  induction es with
  | nil => simp [luaH_set]
  | cons e rest ih =>
    obtain ⟨k1, v1⟩ := e
    by_cases hk : k1 = k
    · simp [luaH_set, hk, ih]
    · simp [luaH_set, hk, ih]

theorem luaH_set_keys (es : List (Value × Value)) (k v : Value) (hv : v ≠ .nil) :
    (luaH_set es k v).map Prod.fst =
      if k ∈ es.map Prod.fst then es.map Prod.fst else es.map Prod.fst ++ [k] := by
  induction es with
  | nil => simp [luaH_set, hv]
  | cons e rest ih =>
    obtain ⟨k1, v1⟩ := e
    by_cases hk : k1 = k
    · simp [luaH_set, hk, hv]
    · have hk2 : ¬ k = k1 := fun h => hk h.symm
      by_cases hm : k ∈ rest.map Prod.fst
      · simp only [hm, if_true] at ih
        simp only [List.map_cons, List.mem_cons, hk2, hm, or_true, if_true]
        simp [luaH_set, hk, ih]
      · simp only [hm, if_false] at ih
        simp only [List.map_cons, List.mem_cons, hk2, hm, or_false, if_false]
        simp [luaH_set, hk, ih]

/-- A primitive set under a non-nil key keeps the table invariant. -/
theorem tableWF_set {es : List (Value × Value)} (h : TableWF es) (k v : Value) (hk : k ≠ .nil) :
    TableWF (luaH_set es k v) := by
  obtain ⟨h1, h2, h3⟩ := h
  refine ⟨?_, ?_, ?_⟩
  · by_cases hv : v = .nil
    · subst hv; rw [luaH_set_keys_nil]; exact h1.filter _
    · rw [luaH_set_keys es k v hv]
      by_cases hm : k ∈ es.map Prod.fst
      · simpa [hm] using h1
      · simp only [hm, if_false]
        exact List.Nodup.append h1 (List.nodup_singleton k) (by simpa using hm)
  · intro hmem
    obtain ⟨x, hx, hx1⟩ := List.mem_map.1 hmem
    rcases luaH_set_mem es k v x hx with h | h
    · exact h2 (List.mem_map.2 ⟨x, h, hx1⟩)
    · rw [h.1] at hx1; exact hk hx1
  · intro hmem
    obtain ⟨x, hx, hx1⟩ := List.mem_map.1 hmem
    rcases luaH_set_mem es k v x hx with h | h
    · exact h3 (List.mem_map.2 ⟨x, h, hx1⟩)
    · rw [h.1] at hx1; exact h.2 hx1

theorem luaH_get_mem (es : List (Value × Value)) (k : Value) (h : luaH_get es k ≠ .nil) :
    k ∈ es.map Prod.fst := by
  induction es with
  | nil => simp [luaH_get] at h
  | cons e rest ih =>
    obtain ⟨k1, v1⟩ := e
    by_cases hk : k1 = k
    · simp [hk]
    · simp only [luaH_get, hk, if_false] at h
      simp [ih h]

theorem exObj_eq : exObj =
    { stack := [.userdata 0],
      tables := [⟨[(.str "T", .table 2), (.str "U", .table 3),
          (.lightuserdata obj_registry, .table 4)], none⟩, ⟨[], none⟩,
        ⟨[(.str "__gc", .function 7), (.str "__index", .table 2), (.str "name", .str "T")], none⟩,
        ⟨[], some 2⟩, ⟨[], some 5⟩, ⟨[(.str "__mode", .str "v")], none⟩, ⟨[], some 2⟩,
        ⟨[(.str "__gc", .function 7), (.str "__index", .table 6), (.str "__newindex", .table 6)],
          none⟩],
      udatas := [⟨4096, 16, some 7, 7⟩],
      l_registry := 0, l_gt := 1, env := 1, upvalues := [], mt := [] } := by
  decide

theorem c8_register_obj_stack_neutral_local_witness :
    ∃ o L1, index2adr exObj (-1) = .ok o ∧ register_obj exObj (-1) 4096 = .ok L1 ∧
      L1.stack = exObj.stack ∧
      registry_entry L1 4096 = o.getD .nil ∧
      ∀ q, q ≠ 4096 → registry_entry L1 q = registry_entry exObj q :=
  c8_register_obj_stack_neutral_local exObj 4 (-1) 4096 (by decide) (by decide)

/-- C5 (as amended): ordered publish, with room on the stack.  With the identity registry
initialised, for a `NULL`-terminated array of non-null pointers `ps` (followed in memory by
anything) for which `lua_checkstack` grants the `ps.length + 1` slots `push_objs` asks for
(stack depth + `ps.length` + 1 is at most `LUAI_MAXCSTACK`), `push_objs` returns `ps.length`,
and the stack it leaves is the original stack with one new value per pointer above it, the
value for `p` being the registry's entry for `p` (`nil` when `p` is not registered), in
input order (the last pointer's value on top); the registry table is not left on the stack.
For the empty array the state is untouched, whatever the depth of the stack. -/
theorem c5_push_objs_ordered (L : lua_State) (t : Nat) (ps rest : List Ptr)
    (hinit : RegistryInit L t) (hnz : ∀ p ∈ ps, p ≠ 0)
    (hroom : (L.stack.length : Int) + ps.length + 1 ≤ LUAI_MAXCSTACK) :
    push_objs L (ps ++ 0 :: rest) =
        .ok ((ps.length : Int),
          { L with stack := (ps.map (registry_entry L)).reverse ++ L.stack }) ∧
      push_objs L (0 :: rest) = .ok (0, L) :=
  ⟨push_objs_eq L t ps rest hinit hnz (Or.inl hroom),
    by simp [push_objs, count_objs, bind, Except.bind, pure, Except.pure]⟩

theorem c5_push_objs_ordered_witness :
    push_objs exReg ([4096, 77] ++ 0 :: [5]) =
        .ok ((([4096, 77] : List Ptr).length : Int),
          { exReg with stack := (([4096, 77] : List Ptr).map (registry_entry exReg)).reverse ++
              exReg.stack }) ∧
      push_objs exReg (0 :: [5]) = .ok (0, exReg) :=
  c5_push_objs_ordered exReg 4 [4096, 77] [5] (by decide) (by decide) (by decide)

/-- C5 (as stated) fails for an array the stack has no room for: in `exReg` (identity registry
initialised, one value on the stack) an array of 9000 non-null pointers makes `push_objs` ask
`lua_checkstack` for 9001 slots, more than `LUAI_MAXCSTACK`; the request is refused, the
answer is dropped, and the pushes overrun the stack instead of leaving 9000 values. -/
theorem c5_push_objs_overrun_counterexample :
    RegistryInit exReg 4 ∧ (∀ p ∈ List.replicate 9000 (4096 : Ptr), p ≠ 0) ∧
      (lua_checkstack exReg 9001 LUA_MINSTACK).1 = false ∧
      push_objs exReg (List.replicate 9000 4096 ++ 0 :: []) = .error .stackoverrun := by
  have hnz : ∀ p ∈ List.replicate 9000 (4096 : Ptr), p ≠ 0 := by
    intro p hp
    rw [List.eq_of_mem_replicate hp]; decide
  have hlen : exReg.stack.length = 1 := by decide
  refine ⟨by decide, hnz, by decide, ?_⟩
  refine push_objs_overrun exReg 4 (List.replicate 9000 4096) [] (by decide) hnz ?_ ?_
  · rw [hlen, List.length_replicate]; decide
  · rw [List.length_replicate]; decide

/-- C1 (as amended): round trip for a non-null pointer.  With the identity registry
initialised, after `register_obj` stored the value at a valid stack index `obj_i` under a
pointer `p` that is not `NULL`, `push_obj(p)` returns 1 and pushes exactly one value, the very
value that was registered. -/
theorem c1_push_obj_round_trip (L : lua_State) (t : Nat) (obj_i : Int) (p : Ptr)
    (hinit : RegistryInit L t)
    (hi : (1 ≤ obj_i ∧ obj_i ≤ L.stack.length) ∨
      (-(L.stack.length : Int) ≤ obj_i ∧ obj_i ≤ -1))
    (hp : p ≠ 0) :
    ∃ o L1, index2adr L obj_i = .ok o ∧ register_obj L obj_i p = .ok L1 ∧
      push_obj L1 p = .ok (1, { L1 with stack := o.getD .nil :: L1.stack }) := by
  obtain ⟨o, ho, hok⟩ := index2adr_valid L obj_i hi
  obtain ⟨L1, h1, _, h2, _, h3, _⟩ := register_obj_ok L t obj_i p o hinit ho hok
  refine ⟨o, L1, ho, h1, ?_⟩
  have := push_objs_eq L1 t [p] [] h2 (by simpa using hp) (Or.inr (by simp [LUA_MINSTACK]))
  simpa [push_obj, registry_entry, h3, luaH_get_set_self] using this

theorem c1_push_obj_round_trip_witness :
    ∃ o L1, index2adr exObj (-1) = .ok o ∧ register_obj exObj (-1) 4096 = .ok L1 ∧
      push_obj L1 4096 = .ok (1, { L1 with stack := o.getD .nil :: L1.stack }) :=
  c1_push_obj_round_trip exObj 4 (-1) 4096 (by decide) (by decide) (by decide)

/-- C1 (as stated) fails for the `NULL` pointer: in `exObj` the handle on top of the stack is
registered under `NULL` by `register_obj`, the registry then holds it under `NULL`, and
`push_obj(NULL)` returns 0 and pushes nothing. -/
theorem c1_push_obj_null_counterexample :
    RegistryInit exObj 4 ∧ index2adr exObj (-1) = .ok (some (.userdata 0)) ∧
      register_obj exObj (-1) 0 = .ok exRegNull ∧
      registry_entry exRegNull 0 = .userdata 0 ∧
      push_obj exRegNull 0 = .ok (0, exRegNull) := by
  decide

/-- C2: uniqueness, last write wins.  With the identity registry initialised, after
`register_obj` with the value `h1` at index `i1` and then `register_obj` with the value `h2` at
index `i2`, both under the same pointer `p`, the raw lookup of `p` in the identity registry
yields `h2` (and so not `h1`, when the two differ), `push_obj(p)` pushes `h2` when `p` is not
`NULL`, and the registry holds at most one entry for `p`: exactly one when `h2` is not `nil`. -/
theorem c2_register_obj_last_write_wins (L : lua_State) (t : Nat) (i1 i2 : Int) (p : Ptr)
    (hinit : RegistryInit L t) (hwf : TableWF (registry_entries L))
    (hi1 : (1 ≤ i1 ∧ i1 ≤ L.stack.length) ∨ (-(L.stack.length : Int) ≤ i1 ∧ i1 ≤ -1))
    (hi2 : (1 ≤ i2 ∧ i2 ≤ L.stack.length) ∨ (-(L.stack.length : Int) ≤ i2 ∧ i2 ≤ -1)) :
    ∃ o1 o2 L1 L2, index2adr L i1 = .ok o1 ∧ index2adr L i2 = .ok o2 ∧
      register_obj L i1 p = .ok L1 ∧ register_obj L1 i2 p = .ok L2 ∧
      registry_entry L2 p = o2.getD .nil ∧
      (o1.getD .nil ≠ o2.getD .nil → registry_entry L2 p ≠ o1.getD .nil) ∧
      (p ≠ 0 → push_obj L2 p = .ok (1, { L2 with stack := o2.getD .nil :: L2.stack })) ∧
      ((registry_entries L2).map Prod.fst).count (.lightuserdata p) ≤ 1 ∧
      (o2.getD .nil ≠ .nil →
        ((registry_entries L2).map Prod.fst).count (.lightuserdata p) = 1) := by
  obtain ⟨o1, ho1, hok1⟩ := index2adr_valid L i1 hi1
  obtain ⟨o2, ho2, hok2⟩ := index2adr_valid L i2 hi2
  obtain ⟨L1, h1, _, hinit1, _, he1, hidx1⟩ := register_obj_ok L t i1 p o1 hinit ho1 hok1
  obtain ⟨L2, h2, _, hinit2, _, he2, _⟩ :=
    register_obj_ok L1 t i2 p o2 hinit1 ((hidx1 i2).trans ho2) hok2
  have hent : registry_entry L2 p = o2.getD .nil := by
    simp [registry_entry, he2, luaH_get_set_self]
  have hwf2 : TableWF (registry_entries L2) := by
    rw [he2, he1]
    exact tableWF_set (tableWF_set hwf _ _ (by simp)) _ _ (by simp)
  have hle : ((registry_entries L2).map Prod.fst).count (.lightuserdata p) ≤ 1 :=
    List.nodup_iff_count_le_one.1 hwf2.1 _
  refine ⟨o1, o2, L1, L2, ho1, ho2, h1, h2, hent, ?_, ?_, hle, ?_⟩
  · intro hne; rw [hent]; exact fun h => hne h.symm
  · intro hp
    have := push_objs_eq L2 t [p] [] hinit2 (by simpa using hp) (Or.inr (by simp [LUA_MINSTACK]))
    simpa [push_obj, hent] using this
  · intro hnn
    have hmem : Value.lightuserdata p ∈ (registry_entries L2).map Prod.fst :=
      luaH_get_mem _ _ (by
        have := hent; unfold registry_entry at this; rw [this]; exact hnn)
    have := List.count_pos_iff.2 hmem
    omega

theorem c2_register_obj_last_write_wins_witness :
    ∃ o1 o2 L1 L2, index2adr exObj2 (-2) = .ok o1 ∧ index2adr exObj2 (-1) = .ok o2 ∧
      register_obj exObj2 (-2) 4096 = .ok L1 ∧ register_obj L1 (-1) 4096 = .ok L2 ∧
      registry_entry L2 4096 = o2.getD .nil ∧
      (o1.getD .nil ≠ o2.getD .nil → registry_entry L2 4096 ≠ o1.getD .nil) ∧
      (4096 ≠ 0 → push_obj L2 4096 = .ok (1, { L2 with stack := o2.getD .nil :: L2.stack })) ∧
      ((registry_entries L2).map Prod.fst).count (.lightuserdata 4096) ≤ 1 ∧
      (o2.getD .nil ≠ .nil →
        ((registry_entries L2).map Prod.fst).count (.lightuserdata 4096) = 1) :=
  c2_register_obj_last_write_wins exObj2 4 (-2) (-1) 4096 (by decide) (by decide) (by decide)
    (by decide)

/-! ## `obj_count` -/

theorem entriesAfter_append (pre suf : List (Value × Value)) (k v : Value)
    (hk : k ∉ pre.map Prod.fst) :
    entriesAfter (pre ++ (k, v) :: suf) k = some suf := by
  induction pre with
  | nil => simp [entriesAfter]
  | cons e pre ih =>
    obtain ⟨k1, v1⟩ := e
    have h1 : ¬ k1 = k := fun h => hk (by simp [h])
    have h2 : k ∉ pre.map Prod.fst := fun h => hk (by simp [h])
    simp [entriesAfter, h1, ih h2]

theorem lua_pop_one (a : Value) (s : List Value) (tbs uds r g e ups m) :
    lua_pop ⟨a :: s, tbs, uds, r, g, e, ups, m⟩ 1 = .ok ⟨s, tbs, uds, r, g, e, ups, m⟩ := by
  simp [lua_pop, lua_settop]

/-- The traversal loop of `obj_count`, entered with the key of an entry on top of the stack:
it counts the entries that follow. -/
theorem obj_count_loop_eq (suf : List (Value × Value)) :
    ∀ (pre : List (Value × Value)) (k v : Value) (fuel : Nat) (c : Int) (s : List Value)
      (t : Nat) (h1 : Table) (tbs uds r g e ups m),
      tbs[t]? = some h1 → h1.entries = pre ++ (k, v) :: suf → TableWF h1.entries →
      suf.length < fuel →
      obj_count_loop fuel ⟨k :: .table t :: s, tbs, uds, r, g, e, ups, m⟩ c =
        .ok (c + suf.length, ⟨.table t :: s, tbs, uds, r, g, e, ups, m⟩) := by
  induction suf with
  | nil =>
    intro pre k v fuel c s t h1 tbs uds r g e ups m ht hes hwf hfuel
    obtain ⟨f, rfl⟩ : ∃ f, fuel = f + 1 := ⟨fuel - 1, by omega⟩
    have hknil : k ≠ .nil := fun h => hwf.2.1 (by rw [hes]; simp [h])
    have hkpre : k ∉ pre.map Prod.fst := by
      have := hwf.1; rw [hes] at this
      simp only [List.map_append, List.map_cons, List.nodup_append, List.nodup_cons] at this
      intro hmem
      exact this.2.2 hmem (by simp)
    simp [obj_count_loop, lua_next, index2adr_neg2, getTable, ht, luaH_next, hknil, hes,
      entriesAfter_append pre [] k v hkpre, bind, Except.bind, pure, Except.pure]
  | cons e2 suf ih =>
    intro pre k v fuel c s t h1 tbs uds r g e ups m ht hes hwf hfuel
    obtain ⟨k2, v2⟩ := e2
    obtain ⟨f, rfl⟩ : ∃ f, fuel = f + 1 := ⟨fuel - 1, by simp at hfuel; omega⟩
    have hknil : k ≠ .nil := fun h => hwf.2.1 (by rw [hes]; simp [h])
    have hkpre : k ∉ pre.map Prod.fst := by
      have := hwf.1; rw [hes] at this
      simp only [List.map_append, List.map_cons, List.nodup_append, List.nodup_cons] at this
      intro hmem
      exact this.2.2 hmem (by simp)
    have hes2 : h1.entries = (pre ++ [(k, v)]) ++ (k2, v2) :: suf := by simp [hes]
    have hrec := ih (pre ++ [(k, v)]) k2 v2 f (c + 1) s t h1 tbs uds r g e ups m ht hes2 hwf
      (by simp at hfuel; omega)
    simp [obj_count_loop, lua_next, index2adr_neg2, getTable, ht, luaH_next, hknil, hes,
      entriesAfter_append pre ((k2, v2) :: suf) k v hkpre, bind, Except.bind,
      lua_pop_one, hrec]
    omega

/-- What `obj_count` computes: it pushes the identity registry table and, above it, the number
of its entries. -/
theorem obj_count_eq (L : lua_State) (t : Nat) (fuel : Nat)
    (hinit : RegistryInit L t) (hwf : TableWF (registry_entries L))
    (hfuel : (registry_entries L).length < fuel) :
    obj_count fuel L =
      .ok (1, { L with
        stack := Value.number (registry_entries L).length :: Value.table t :: L.stack }) := by
  obtain ⟨stk, tbs, uds, r, g, e, ups, m⟩ := L
  obtain ⟨reg, h1, hr, hg, ht, hne⟩ := registryInit_tables hinit
  rw [registry_entries_of_init hinit ht] at hwf hfuel ⊢
  obtain ⟨f, rfl⟩ : ∃ f, fuel = f + 1 := ⟨fuel - 1, by omega⟩
  cases hes : h1.entries with
  | nil =>
    simp [obj_count, lua_pushlightuserdata, push, lua_rawget, index2adr_registry, getTable, hr,
      hg, lua_istable, index2adr_neg1, lua_pushnil, obj_count_loop, lua_next, index2adr_neg2,
      ht, luaH_next, hes, lua_pushinteger, Except.map, bind, Except.bind, pure, Except.pure]
  | cons e1 suf =>
    obtain ⟨k, v⟩ := e1
    rw [hes] at hfuel
    have hrec := obj_count_loop_eq suf [] k v f 1 stk t h1 tbs uds r g e ups m ht
      (by simp [hes]) hwf (by simp at hfuel; omega)
    simp [obj_count, lua_pushlightuserdata, push, lua_rawget, index2adr_registry, getTable, hr,
      hg, lua_istable, index2adr_neg1, lua_pushnil, obj_count_loop, lua_next, index2adr_neg2,
      ht, luaH_next, hes, lua_pushinteger, Except.map, bind, Except.bind, pure, Except.pure,
      lua_pop_one, hrec]
    omega

/-! ## Metamethod-aware access in the cases the bridge meets -/

/-- A field store on a table without metatable is a primitive store. -/
theorem luaV_settable_nometa (L : lua_State) (r : Nat) (h : Table) (key val : Value)
    (hr : L.tables[r]? = some h) (hm : h.metatable = none) (hk : key ≠ .nil)
    (hk2 : key ≠ .nan) :
    luaV_settable L (.table r) key val = .ok (rawstore L r h key val) := by
  have h100 : MAXTAGLOOP = 99 + 1 := rfl
  rw [luaV_settable, h100, luaV_settable_loop]
  by_cases hg : luaH_get h.entries key = .nil
  · simp [getTable, hr, hk, hk2, hg, luaT_gettmbyobj, tmOfMeta, metatableOf, Except.map, hm]
  · simp [getTable, hr, hk, hk2, hg]

/-- A field read that the table itself answers is a primitive get. -/
theorem luaV_gettable_hit (L : lua_State) (r : Nat) (h : Table) (key : Value)
    (hr : L.tables[r]? = some h) (hg : luaH_get h.entries key ≠ .nil) :
    luaV_gettable L (.table r) key = .ok (luaH_get h.entries key) := by
  have h100 : MAXTAGLOOP = 99 + 1 := rfl
  rw [luaV_gettable, h100, luaV_gettable_loop]
  simp [getTable, hr, hg]

/-! ## `create_obj_registry` -/

theorem getElem?_append_len {α : Type} (l : List α) (a : α) (rest : List α) :
    (l ++ a :: rest)[l.length]? = some a := by
  rw [List.getElem?_append_right (le_refl _)]; simp

theorem getElem?_append_len1 {α : Type} (l : List α) (a b : α) (rest : List α) :
    (l ++ a :: b :: rest)[l.length + 1]? = some b := by
  rw [List.getElem?_append_right (by omega)]; simp

theorem set_append_len {α : Type} (l : List α) (a c : α) (rest : List α) :
    (l ++ a :: rest).set l.length c = l ++ c :: rest := by
  rw [List.set_append_right _ _ (le_refl _)]; simp

theorem set_append_len1 {α : Type} (l : List α) (a b c : α) (rest : List α) :
    (l ++ a :: b :: rest).set (l.length + 1) c = l ++ a :: c :: rest := by
  rw [List.set_append_right _ _ (by omega)]; simp

theorem getElem?_append_lt {α : Type} (l l2 : List α) (i : Nat) (x : α) (h : l[i]? = some x) :
    (l ++ l2)[i]? = some x := by
  have hlt : i < l.length := by
    by_contra hc
    rw [List.getElem?_eq_none (by omega)] at h
    cases h
  rw [List.getElem?_append_left hlt]; exact h

theorem set_append_lt {α : Type} (l l2 : List α) (i : Nat) (x y : α) (h : l[i]? = some x) :
    (l ++ l2).set i y = l.set i y ++ l2 := by
  have hlt : i < l.length := by
    by_contra hc
    rw [List.getElem?_eq_none (by omega)] at h
    cases h
  rw [List.set_append_left _ _ hlt]

/-- What `create_obj_registry` computes: two tables are allocated, the identity registry
(whose metatable is the second one, holding `__mode = "v"`), and the Lua registry gets the
identity registry under `&obj_registry`.  The stack is left as it was. -/
theorem create_obj_registry_eq (stk tbs uds r g e ups m) (reg : Table) (hr : tbs[r]? = some reg) :
    create_obj_registry ⟨stk, tbs, uds, r, g, e, ups, m⟩ =
      .ok ⟨stk,
        tbs.set r ⟨luaH_set reg.entries (.lightuserdata obj_registry) (.table tbs.length),
            reg.metatable⟩ ++
          [⟨[], some (tbs.length + 1)⟩, ⟨[(.str "__mode", .str "v")], none⟩],
        uds, r, g, e, ups, m⟩ := by
  have hset := luaV_settable_nometa
    ⟨.str "v" :: .table (tbs.length + 1) :: .table tbs.length ::
      .lightuserdata obj_registry :: stk, tbs ++ [⟨[], none⟩, ⟨[], none⟩], uds, r, g, e, ups, m⟩
    (tbs.length + 1) ⟨[], none⟩ (.str "__mode") (.str "v")
    (getElem?_append_len1 _ _ _ _) rfl (by simp) (by simp)
  simp only [rawstore, set_append_len1] at hset
  simp [create_obj_registry, lua_pushlightuserdata, push, lua_newtable, lua_createtable,
    lua_pushstring, lua_setfield, index2adr_neg2, hset, Except.map, lua_setmetatable,
    getTable, getElem?_append_len, set_append_len, lua_rawset, index2adr_registry,
    getElem?_append_lt _ _ _ _ hr, set_append_lt _ _ _ _ _ hr, luaH_set,
    bind, Except.bind, pure, Except.pure, List.getElem_append_right]

/-- After `create_obj_registry` the identity registry is initialised, as the first table the
call allocated, and is empty; the stack is as before. -/
theorem create_obj_registry_ok (L0 : lua_State) (hreg : L0.l_registry < L0.tables.length) :
    ∃ L1, create_obj_registry L0 = .ok L1 ∧ L1.stack = L0.stack ∧
      RegistryInit L1 L0.tables.length ∧ registry_entries L1 = [] ∧
      (∀ j, index2adr L1 j = index2adr L0 j) := by
  obtain ⟨stk, tbs, uds, r, g, e, ups, m⟩ := L0
  simp only at hreg
  have hr : tbs[r]? = some tbs[r] := List.getElem?_eq_getElem hreg
  have hinit : RegistryInit ⟨stk,
      tbs.set r ⟨luaH_set tbs[r].entries (.lightuserdata obj_registry) (.table tbs.length),
        tbs[r].metatable⟩ ++
      [⟨[], some (tbs.length + 1)⟩, ⟨[(.str "__mode", .str "v")], none⟩],
      uds, r, g, e, ups, m⟩ tbs.length := by
    refine ⟨?_, by simp only; omega, by simp⟩
    simp only
    rw [List.getElem?_append_left (by simpa using hreg)]
    simp [List.getElem?_set_self hreg, luaH_get_set_self]
  refine ⟨_, create_obj_registry_eq stk tbs uds r g e ups m tbs[r] hr, rfl, hinit, ?_,
    fun j => rfl⟩
  have ht : (tbs.set r ⟨luaH_set tbs[r].entries (.lightuserdata obj_registry)
      (.table tbs.length), tbs[r].metatable⟩ ++
      [⟨[], some (tbs.length + 1)⟩, ⟨[(.str "__mode", .str "v")], none⟩])[tbs.length]?
      = some ⟨[], some (tbs.length + 1)⟩ := by
    rw [List.getElem?_append_right (by simp)]; simp
  rw [registry_entries_of_init hinit ht]

/-- A sequence of registrations of non-nil values: every call returns, the stack is left as
it was, and the keys of the identity registry are the old keys and the registered pointers. -/
theorem register_objs_ok (regs : List (Int × Ptr)) :
    ∀ (L : lua_State) (t : Nat), RegistryInit L t → TableWF (registry_entries L) →
      (∀ ip ∈ regs, ∃ v, index2adr L ip.1 = .ok (some v) ∧ v ≠ .nil) →
      ∃ Ln, register_objs L regs = .ok Ln ∧ Ln.stack = L.stack ∧ RegistryInit Ln t ∧
        TableWF (registry_entries Ln) ∧
        (∀ x, x ∈ (registry_entries Ln).map Prod.fst ↔
          x ∈ (registry_entries L).map Prod.fst ∨
            x ∈ regs.map (fun ip => Value.lightuserdata ip.2)) := by
  induction regs with
  | nil =>
    intro L t hinit hwf _
    exact ⟨L, rfl, rfl, hinit, hwf, by simp⟩
  | cons ip regs ih =>
    intro L t hinit hwf hregs
    obtain ⟨i, p⟩ := ip
    obtain ⟨v, hv, hvn⟩ := hregs (i, p) (by simp)
    obtain ⟨L1, h1, hs1, hinit1, _, he1, hidx1⟩ :=
      register_obj_ok L t i p (some v) hinit hv (Or.inl (by simp))
    have hwf1 : TableWF (registry_entries L1) := by
      rw [he1]; exact tableWF_set hwf _ _ (by simp)
    obtain ⟨Ln, h2, hs2, hinit2, hwf2, hkeys⟩ := ih L1 t hinit1 hwf1 (by
      intro ip hip
      obtain ⟨w, hw, hwn⟩ := hregs ip (by simp [hip])
      exact ⟨w, (hidx1 _).trans hw, hwn⟩)
    refine ⟨Ln, by simp [register_objs, h1, h2], hs2.trans hs1, hinit2, hwf2, ?_⟩
    intro x
    rw [hkeys x, he1]
    simp only [Option.getD_some]
    rw [luaH_set_keys _ _ _ hvn]
    by_cases hm : Value.lightuserdata p ∈ (registry_entries L).map Prod.fst
    · simp only [hm, if_true, List.map_cons, List.mem_cons]
      constructor
      · rintro (h | h)
        · exact Or.inl h
        · exact Or.inr (Or.inr h)
      · rintro (h | h | h)
        · exact Or.inl h
        · exact Or.inl (h ▸ hm)
        · exact Or.inr h
    · simp only [hm, if_false, List.map_cons, List.mem_cons, List.mem_append,
        List.mem_singleton]
      tauto

/-- A duplicate-free list of keys that lists exactly the pointers `ps` has as many elements
as there are distinct pointers in `ps`. -/
theorem keys_length_eq_dedup (keys : List Value) (ps : List Ptr) (hnd : keys.Nodup)
    (hmem : ∀ x, x ∈ keys ↔ x ∈ ps.map Value.lightuserdata) :
    keys.length = ps.dedup.length := by
  have hinj : Function.Injective Value.lightuserdata := fun a b h => by cases h; rfl
  have h1 : keys.toFinset = (ps.map Value.lightuserdata).toFinset := by
    ext x; simp only [List.mem_toFinset]; exact hmem x
  have h2 : keys.dedup.Perm (ps.map Value.lightuserdata).dedup :=
    List.toFinset_eq_iff_perm_dedup.1 h1
  have h3 := h2.length_eq
  rw [List.Nodup.dedup hnd, List.dedup_map_of_injective hinj, List.length_map] at h3
  exact h3

/-- C7: the value `obj_count` reports.  After `create_obj_registry` and any sequence of
`register_obj` calls that register non-nil values, `obj_count` (given fuel for more
iterations than there are distinct pointers) returns 1 with, on top of the stack, the number
of distinct pointers registered: 0 for no registration, and no more for a pointer registered
again.  Apart from the stack the state, and so the identity registry, is unchanged. -/
theorem c7_obj_count_value (L0 : lua_State) (regs : List (Int × Ptr)) (fuel : Nat)
    (hreg : L0.l_registry < L0.tables.length)
    (hregs : ∀ ip ∈ regs, ∃ v, index2adr L0 ip.1 = .ok (some v) ∧ v ≠ .nil)
    (hfuel : (regs.map Prod.snd).dedup.length < fuel) :
    ∃ L1 Ln, create_obj_registry L0 = .ok L1 ∧ register_objs L1 regs = .ok Ln ∧
      obj_count fuel Ln = .ok (1, { Ln with
        stack := Value.number (regs.map Prod.snd).dedup.length ::
          Value.table L0.tables.length :: Ln.stack }) := by
  obtain ⟨L1, h1, _, hinit1, he1, hidx1⟩ := create_obj_registry_ok L0 hreg
  obtain ⟨Ln, h2, _, hinit2, hwf2, hkeys⟩ :=
    register_objs_ok regs L1 L0.tables.length hinit1 (by rw [he1]; decide) (by
      intro ip hip
      obtain ⟨w, hw, hwn⟩ := hregs ip hip
      exact ⟨w, (hidx1 _).trans hw, hwn⟩)
  have hlen : (registry_entries Ln).length = (regs.map Prod.snd).dedup.length := by
    have := keys_length_eq_dedup ((registry_entries Ln).map Prod.fst) (regs.map Prod.snd)
      hwf2.1 (by
        intro x; rw [hkeys x, he1]; simp [Function.comp_def])
    simpa using this
  refine ⟨L1, Ln, h1, h2, ?_⟩
  have := obj_count_eq Ln L0.tables.length fuel hinit2 hwf2 (by omega)
  rw [hlen] at this
  exact this

theorem c7_obj_count_value_witness :
    ∃ L1 Ln, create_obj_registry exPre = .ok L1 ∧
      register_objs L1 [(1, 100), (2, 200), (-1, 100)] = .ok Ln ∧
      obj_count 3 Ln = .ok (1, { Ln with
        stack := Value.number
            (([(1, 100), (2, 200), (-1, 100)] : List (Int × Ptr)).map Prod.snd).dedup.length ::
          Value.table exPre.tables.length :: Ln.stack }) :=
  c7_obj_count_value exPre [(1, 100), (2, 200), (-1, 100)] 3 (by decide)
    (by
      intro ip hip
      simp only [List.mem_cons, List.mem_singleton, List.not_mem_nil, or_false] at hip
      rcases hip with rfl | rfl | rfl
      · exact ⟨.number 1, by decide, by decide⟩
      · exact ⟨.number 2, by decide, by decide⟩
      · exact ⟨.number 2, by decide, by decide⟩)
    (by decide)

/-- C6: `obj_count` leaves two values, not one.  Called in `exInit` (identity registry just
created, empty stack) it returns 1 and leaves the identity registry table (table 4) on the
stack below the count: the depth grows by 2. -/
theorem c6_obj_count_leaves_registry_table :
    RegistryInit exInit 4 ∧ exInit.stack = [] ∧
      obj_count 1 exInit = .ok (1, { exInit with stack := [.number 0, .table 4] }) := by
  decide

/-! ## `obj_new` -/

theorem registered_tables {stk tbs uds r g e ups m} {tname : String} {d : Nat}
    (h : Registered ⟨stk, tbs, uds, r, g, e, ups, m⟩ tname d) :
    ∃ reg D, tbs[r]? = some reg ∧ luaH_get reg.entries (.str tname) = .table d ∧
      tbs[d]? = some D := by
  obtain ⟨h1, h2⟩ := h
  simp only [Option.map_eq_some'] at h1
  obtain ⟨reg, hr, hg⟩ := h1
  exact ⟨reg, tbs[d], hr, hg, List.getElem?_eq_getElem h2⟩

/-- The environment record `obj_new` builds for a shadow table `s` and a cleanup hook `gc`. -/
theorem fenv_entries (gc : Value) (s : Nat) :
    luaH_set (luaH_set (luaH_set [] (.str "__gc") gc) (.str "__index") (.table s))
        (.str "__newindex") (.table s) =
      (if gc = .nil then [] else [(.str "__gc", gc)]) ++
        [(.str "__index", .table s), (.str "__newindex", .table s)] := by
  by_cases hgc : gc = .nil <;> simp [luaH_set, hgc]

theorem lua_remove_neg2 (a b : Value) (s : List Value) (tbs uds r g e ups m) :
    lua_remove ⟨a :: b :: s, tbs, uds, r, g, e, ups, m⟩ (-2) =
      .ok ⟨a :: s, tbs, uds, r, g, e, ups, m⟩ := by
  have h : (2 : Int) ≤ (s.length : Int) + 1 + 1 := by omega
  simp [lua_remove, stackPos, h]

/-- What `obj_new` computes for a registered type name and a successful allocation. -/
theorem obj_new_eq (stk tbs uds r g e ups m) (size : Nat) (tname : String) (blk : Ptr)
    (d : Nat) (D : Table)
    (hreg : Registered ⟨stk, tbs, uds, r, g, e, ups, m⟩ tname d) (hD : tbs[d]? = some D)
    (hblk : blk ≠ 0) :
    obj_new ⟨stk, tbs, uds, r, g, e, ups, m⟩ size tname blk =
      .ok (blk, ⟨.userdata uds.length :: stk,
        tbs ++ [⟨[], some d⟩,
          ⟨(if luaH_get D.entries (.str "__gc") = .nil then []
              else [(.str "__gc", luaH_get D.entries (.str "__gc"))]) ++
            [(.str "__index", .table tbs.length), (.str "__newindex", .table tbs.length)],
            none⟩],
        uds ++ [⟨blk, size, some (tbs.length + 1), tbs.length + 1⟩], r, g, e, ups, m⟩) := by
  obtain ⟨reg, D1, hr, hg, hD1⟩ := registered_tables hreg
  rw [hD] at hD1; cases hD1
  have hgn : luaH_get reg.entries (.str tname) ≠ .nil := by rw [hg]; simp
  rw [← fenv_entries]
  simp [obj_new, lua_newuserdata, hblk, lua_newtable, lua_createtable, luaL_getmetatable,
    lua_getfield, index2adr_registry, luaV_gettable, MAXTAGLOOP, luaV_gettable_loop, getTable,
    getElem?_append_lt _ _ _ _ hr, hgn, hg, push, lua_istable, index2adr_neg1, lua_pushliteral,
    lua_rawget, index2adr_neg2, getElem?_append_lt _ _ _ _ hD, lua_setfield, index2adr_neg3,
    luaV_settable, luaV_settable_loop, luaT_gettmbyobj, tmOfMeta, metatableOf, rawstore,
    getElem?_append_len, getElem?_append_len1, set_append_len, set_append_len1,
    lua_setmetatable, lua_pushvalue, lua_remove_neg2, lua_setfenv, getUdata,
    Except.map, bind, Except.bind, pure, Except.pure, List.getElem_append_right]

/-- Allocating tables and userdata leaves an initialised identity registry as it is. -/
theorem registryInit_append {stk stk2 tbs uds uds2 r g e ups m t} (ext : List Table)
    (hinit : RegistryInit ⟨stk, tbs, uds, r, g, e, ups, m⟩ t) :
    RegistryInit ⟨stk2, tbs ++ ext, uds2, r, g, e, ups, m⟩ t ∧
      registry_entries ⟨stk2, tbs ++ ext, uds2, r, g, e, ups, m⟩ =
        registry_entries ⟨stk, tbs, uds, r, g, e, ups, m⟩ := by
  obtain ⟨reg, h1, hr, hg, ht, hne⟩ := registryInit_tables hinit
  have hinit2 : RegistryInit ⟨stk2, tbs ++ ext, uds2, r, g, e, ups, m⟩ t := by
    refine ⟨?_, hne, ?_⟩
    · simp only
      rw [getElem?_append_lt _ _ _ _ hr]; simp [hg]
    · have := hinit.2.2
      simp only [List.length_append] at this ⊢
      omega
  refine ⟨hinit2, ?_⟩
  rw [registry_entries_of_init hinit2 (getElem?_append_lt _ _ _ _ ht),
    registry_entries_of_init hinit ht]

/-- C9: handle construction.  For every size and every type name registered with a descriptor
table `d`, `obj_new` (the allocator having returned the block `blk`) returns `blk` and pushes
exactly one value, a new userdata; it allocates exactly two tables, a shadow table (table
`L.tables.length`, empty, with metatable `d`) and an environment record `E` (the next table),
with `E.__gc` the raw value of `__gc` in the descriptor, `E.__index` and `E.__newindex` both
the shadow table; `E` is the metatable and the environment of the new userdata.  Every table
and userdata that existed is unchanged, and so is an initialised identity registry. -/
theorem c9_obj_new_construction (L : lua_State) (size : Nat) (tname : String) (blk : Ptr)
    (d : Nat) (hreg : Registered L tname d) (hblk : blk ≠ 0) :
    ∃ L1 D E, obj_new L size tname blk = .ok (blk, L1) ∧
      L.tables[d]? = some D ∧
      L1.stack = .userdata L.udatas.length :: L.stack ∧
      L1.tables = L.tables ++ [⟨[], some d⟩, E] ∧
      luaH_get E.entries (.str "__gc") = luaH_get D.entries (.str "__gc") ∧
      luaH_get E.entries (.str "__index") = .table L.tables.length ∧
      luaH_get E.entries (.str "__newindex") = .table L.tables.length ∧
      L1.udatas = L.udatas ++
        [⟨blk, size, some (L.tables.length + 1), L.tables.length + 1⟩] ∧
      L1.l_registry = L.l_registry ∧
      (∀ t, RegistryInit L t →
        RegistryInit L1 t ∧ registry_entries L1 = registry_entries L) := by
  obtain ⟨stk, tbs, uds, r, g, e, ups, m⟩ := L
  obtain ⟨reg, D, hr, hg, hD⟩ := registered_tables hreg
  refine ⟨_, D, _, obj_new_eq stk tbs uds r g e ups m size tname blk d D hreg hD hblk, hD, rfl,
    rfl, ?_, ?_, ?_, rfl, rfl, fun t hinit => registryInit_append _ hinit⟩
  · by_cases hgc : luaH_get D.entries (.str "__gc") = .nil
    · simp [hgc, luaH_get]
    · simp [hgc, luaH_get]
  · by_cases hgc : luaH_get D.entries (.str "__gc") = .nil
    · simp [hgc, luaH_get]
    · simp [hgc, luaH_get]
  · by_cases hgc : luaH_get D.entries (.str "__gc") = .nil
    · simp [hgc, luaH_get]
    · simp [hgc, luaH_get]

theorem c9_obj_new_construction_witness :
    ∃ L1 D E, obj_new exInit 16 "T" 4096 = .ok (4096, L1) ∧
      exInit.tables[2]? = some D ∧
      L1.stack = .userdata exInit.udatas.length :: exInit.stack ∧
      L1.tables = exInit.tables ++ [⟨[], some 2⟩, E] ∧
      luaH_get E.entries (.str "__gc") = luaH_get D.entries (.str "__gc") ∧
      luaH_get E.entries (.str "__index") = .table exInit.tables.length ∧
      luaH_get E.entries (.str "__newindex") = .table exInit.tables.length ∧
      L1.udatas = exInit.udatas ++
        [⟨4096, 16, some (exInit.tables.length + 1), exInit.tables.length + 1⟩] ∧
      L1.l_registry = exInit.l_registry ∧
      (∀ t, RegistryInit exInit t →
        RegistryInit L1 t ∧ registry_entries L1 = registry_entries exInit) :=
  c9_obj_new_construction exInit 16 "T" 4096 2 (by decide) (by decide)

/-! ## `obj_check` -/

theorem lua_pop_four (a b c d : Value) (s : List Value) (tbs uds r g e ups m) :
    lua_pop ⟨a :: b :: c :: d :: s, tbs, uds, r, g, e, ups, m⟩ 4 =
      .ok ⟨s, tbs, uds, r, g, e, ups, m⟩ := by
  have h : (4 : Int) ≤ (s.length : Int) + 1 + 1 + 1 + 1 := by omega
  simp [lua_pop, lua_settop, h]

/-- What `obj_check` computes on a userdata whose metatable has a table under `__index`, that
table having a metatable `d2`: the block address when `d2` is the descriptor registered under
`tname`, a type error otherwise. -/
theorem obj_check_eq (stk tbs uds r g e ups m) (i : Int) (tname : String)
    (u ev s d2 dT : Nat) (hd : Udata) (E S reg : Table)
    (hi : index2adr ⟨stk, tbs, uds, r, g, e, ups, m⟩ i = .ok (some (.userdata u)))
    (hu : uds[u]? = some hd) (haddr : hd.addr ≠ 0) (hmt : hd.metatable = some ev)
    (hE : tbs[ev]? = some E) (hidx : luaH_get E.entries (.str "__index") = .table s)
    (hS : tbs[s]? = some S) (hSm : S.metatable = some d2)
    (hr : tbs[r]? = some reg) (hg : luaH_get reg.entries (.str tname) = .table dT) :
    obj_check ⟨stk, tbs, uds, r, g, e, ups, m⟩ i tname =
      if d2 = dT then .ok (hd.addr, ⟨stk, tbs, uds, r, g, e, ups, m⟩)
      else .error (.typerror i tname) := by
  have hgn : luaH_get reg.entries (.str tname) ≠ .nil := by rw [hg]; simp
  by_cases hd2 : d2 = dT
  · have hd3 : dT = d2 := hd2.symm
    simp [obj_check, lua_touserdata, hi, getUdata, hu, haddr, lua_getmetatable, metatableOf, hmt,
      push, lua_pushliteral, lua_rawget, index2adr_neg2, getTable, hE, hidx, index2adr_neg1, hS,
      hSm, luaL_getmetatable, lua_getfield, index2adr_registry, luaV_gettable, MAXTAGLOOP,
      luaV_gettable_loop, hr, hgn, hg, lua_rawequal, hd2, lua_pop_four, Except.map, bind,
      Except.bind, pure, Except.pure]
  · have hd3 : ¬ dT = d2 := fun h => hd2 h.symm
    simp [obj_check, lua_touserdata, hi, getUdata, hu, haddr, lua_getmetatable, metatableOf, hmt,
      push, lua_pushliteral, lua_rawget, index2adr_neg2, getTable, hE, hidx, index2adr_neg1, hS,
      hSm, luaL_getmetatable, lua_getfield, index2adr_registry, luaV_gettable, MAXTAGLOOP,
      luaV_gettable_loop, hr, hgn, hg, lua_rawequal, hd2, hd3, luaL_typerror, Except.map, bind,
      Except.bind, pure, Except.pure]

/-- The check of a handle fresh from `obj_new` for the type name `tnew`, against a type name
`tname`: it returns the block address when the two names have the same descriptor and raises
a type error otherwise, wherever the handle sits on the stack. -/
theorem obj_check_after_new (L : lua_State) (size : Nat) (tnew tname : String) (blk : Ptr)
    (d dT : Nat) (hnew : Registered L tnew d) (hreg : Registered L tname dT) (hblk : blk ≠ 0) :
    ∃ L1 h, obj_new L size tnew blk = .ok (blk, L1) ∧ L1.stack.head? = some h ∧
      ∀ (stk : List Value) (i : Int),
        index2adr { L1 with stack := stk } i = .ok (some h) →
        obj_check { L1 with stack := stk } i tname =
          if d = dT then .ok (blk, { L1 with stack := stk })
          else .error (.typerror i tname) := by
  obtain ⟨stk0, tbs, uds, r, g, e, ups, m⟩ := L
  obtain ⟨reg, D, hr, hg, hD⟩ := registered_tables hnew
  obtain ⟨reg2, _, hr2, hg2, _⟩ := registered_tables hreg
  rw [hr] at hr2; cases hr2
  refine ⟨_, .userdata uds.length,
    obj_new_eq stk0 tbs uds r g e ups m size tnew blk d D hnew hD hblk, rfl, ?_⟩
  intro stk i hi
  refine obj_check_eq stk _ _ r g e ups m i tname uds.length (tbs.length + 1) tbs.length d dT
    ⟨blk, size, some (tbs.length + 1), tbs.length + 1⟩ _ ⟨[], some d⟩ reg hi
    (getElem?_append_len _ _ _) hblk rfl (getElem?_append_len1 _ _ _ _) ?_
    (getElem?_append_len _ _ _) rfl (getElem?_append_lt _ _ _ _ hr) hg2
  by_cases hgc : luaH_get D.entries (.str "__gc") = .nil
  · simp [hgc, luaH_get]
  · simp [hgc, luaH_get]

/-- C3: type gate, acceptance.  For a registered type name and any size, the handle `h` that
`obj_new` pushed passes `obj_check` for the same type name at whatever index `i` of whatever
stack it sits: the call returns the pointer `obj_new` returned and leaves the state, the stack
included, exactly as it was.  In particular this holds right after `obj_new`, at index `-1`. -/
theorem c3_obj_check_accepts (L : lua_State) (size : Nat) (tname : String) (blk : Ptr) (d : Nat)
    (hreg : Registered L tname d) (hblk : blk ≠ 0) :
    ∃ L1 h, obj_new L size tname blk = .ok (blk, L1) ∧ L1.stack.head? = some h ∧
      (∀ (stk : List Value) (i : Int),
        index2adr { L1 with stack := stk } i = .ok (some h) →
        obj_check { L1 with stack := stk } i tname = .ok (blk, { L1 with stack := stk })) ∧
      obj_check L1 (-1) tname = .ok (blk, L1) := by
  obtain ⟨L1, h, h1, h2, h3⟩ := obj_check_after_new L size tname tname blk d d hreg hreg hblk
  simp only [if_true] at h3
  refine ⟨L1, h, h1, h2, h3, ?_⟩
  obtain ⟨stk, tbs, uds, r, g, e, ups, m⟩ := L1
  cases stk with
  | nil => simp at h2
  | cons a s =>
    simp only [List.head?_cons, Option.some.injEq] at h2
    subst h2
    exact h3 (a :: s) (-1) (index2adr_neg1 a s tbs uds r g e ups m)

theorem c3_obj_check_accepts_witness :
    ∃ L1 h, obj_new exInit 16 "T" 4096 = .ok (4096, L1) ∧ L1.stack.head? = some h ∧
      (∀ (stk : List Value) (i : Int),
        index2adr { L1 with stack := stk } i = .ok (some h) →
        obj_check { L1 with stack := stk } i "T" = .ok (4096, { L1 with stack := stk })) ∧
      obj_check L1 (-1) "T" = .ok (4096, L1) :=
  c3_obj_check_accepts exInit 16 "T" 4096 2 (by decide) (by decide)

/-- C4 (as amended): type gate, rejection.  For two type names `T` and `U` registered with
different descriptor tables, and any size, the handle `h` that `obj_new(size, U)` pushed fails
`obj_check` for `T` at whatever index `i` it sits: the call does not return but raises the type
error that carries the index `i` and the expected name `T`, whatever the metatables of the two
descriptors are. -/
theorem c4_obj_check_rejects (L : lua_State) (size : Nat) (T U : String) (blk : Ptr)
    (dT dU : Nat) (hT : Registered L T dT) (hU : Registered L U dU) (hne : dU ≠ dT)
    (hblk : blk ≠ 0) :
    ∃ L1 h, obj_new L size U blk = .ok (blk, L1) ∧ L1.stack.head? = some h ∧
      ∀ (stk : List Value) (i : Int),
        index2adr { L1 with stack := stk } i = .ok (some h) →
        obj_check { L1 with stack := stk } i T = .error (.typerror i T) := by
  obtain ⟨L1, h, h1, h2, h3⟩ := obj_check_after_new L size U T blk dU dT hU hT hblk
  simp only [hne, if_false] at h3
  exact ⟨L1, h, h1, h2, h3⟩

theorem c4_obj_check_rejects_witness :
    ∃ L1 h, obj_new exInit 16 "U" 4096 = .ok (4096, L1) ∧ L1.stack.head? = some h ∧
      ∀ (stk : List Value) (i : Int),
        index2adr { L1 with stack := stk } i = .ok (some h) →
        obj_check { L1 with stack := stk } i "T" = .error (.typerror i "T") :=
  c4_obj_check_rejects exInit 16 "T" "U" 4096 2 3 (by decide) (by decide) (by decide) (by decide)

/-- C4 (as stated) fails when two type names share a descriptor: in `exAlias` the names `T`
and `U` are both registered, with the same descriptor table; the handle made by
`obj_new(16, "U")` passes `obj_check` for `T`, which returns its pointer. -/
theorem c4_obj_check_alias_counterexample :
    Registered exAlias "T" 2 ∧ Registered exAlias "U" 2 ∧ "U" ≠ "T" ∧
      obj_new exAlias 16 "U" 4096 = .ok (4096, exAliasObj) ∧
      exAliasObj.stack = [.userdata 0] ∧
      obj_check exAliasObj (-1) "T" = .ok (4096, exAliasObj) := by
  decide

/-! ## Script-level field access through a handle -/

theorem luaH_get_closed (es : List (Value × Value)) (k : Value) (nt nu : Nat)
    (h : ∀ kv ∈ es, ValueClosed nt nu kv.2) : ValueClosed nt nu (luaH_get es k) := by
  induction es with
  | nil => simp [luaH_get, ValueClosed]
  | cons e rest ih =>
    obtain ⟨k1, v1⟩ := e
    by_cases hk : k1 = k
    · simpa [luaH_get, hk] using h (k1, v1) (by simp)
    · simpa [luaH_get, hk] using ih (fun kv hkv => h kv (by simp [hkv]))

/-- The field of a metatable of the old heap is the same, and closed, after the heap grew. -/
theorem tmOfMeta_frame (stk stk0 tbs uds r g e ups m) (text : List Table)
    (uext : List Udata) (event : String) (o : Option Nat)
    (hc : HeapClosed ⟨stk0, tbs, uds, r, g, e, ups, m⟩) (ho : ∀ mt ∈ o, mt < tbs.length) :
    tmOfMeta ⟨stk, tbs ++ text, uds ++ uext, r, g, e, ups, m⟩ o event =
        tmOfMeta ⟨stk0, tbs, uds, r, g, e, ups, m⟩ o event ∧
      ∀ tm, tmOfMeta ⟨stk0, tbs, uds, r, g, e, ups, m⟩ o event = .ok tm →
        ValueClosed tbs.length uds.length tm := by
  cases o with
  | none =>
    refine ⟨rfl, ?_⟩
    intro tm htm
    simp only [tmOfMeta, Except.ok.injEq] at htm
    subst htm; simp [ValueClosed]
  | some m1 =>
    have hlt : m1 < tbs.length := ho m1 (by simp)
    have hget : tbs[m1]? = some tbs[m1] := List.getElem?_eq_getElem hlt
    refine ⟨by simp [tmOfMeta, getTable, getElem?_append_lt _ _ _ _ hget, hget], ?_⟩
    intro tm htm
    simp only [tmOfMeta, getTable, hget, Except.map, Except.ok.injEq] at htm
    subst htm
    exact luaH_get_closed _ _ _ _ (hc.1 _ (List.getElem_mem _)).2

/-- The metatable of a closed value is the same, and in the old heap, after the heap grew. -/
theorem metatableOf_frame (stk stk0 tbs uds r g e ups m) (text : List Table)
    (uext : List Udata) (x : Value)
    (hc : HeapClosed ⟨stk0, tbs, uds, r, g, e, ups, m⟩)
    (hx : ValueClosed tbs.length uds.length x) :
    metatableOf ⟨stk, tbs ++ text, uds ++ uext, r, g, e, ups, m⟩ x =
        metatableOf ⟨stk0, tbs, uds, r, g, e, ups, m⟩ x ∧
      ∃ o, metatableOf ⟨stk0, tbs, uds, r, g, e, ups, m⟩ x = .ok o ∧
        ∀ mt ∈ o, mt < tbs.length := by
  obtain ⟨hc1, hc2, hc3⟩ := hc
  simp only at hc1 hc2 hc3
  have basic : ∀ n : Nat, ∀ mt ∈ (m[n]?).getD none, mt < tbs.length := by
    intro n mt hmt
    cases hq : m[n]? with
    | none => simp [hq] at hmt
    | some o => exact hc3 o (List.getElem?_mem hq) mt (by simpa [hq] using hmt)
  cases x with
  | table r1 =>
    simp only [ValueClosed] at hx
    have hget : tbs[r1]? = some tbs[r1] := List.getElem?_eq_getElem hx
    refine ⟨by simp [metatableOf, getTable, getElem?_append_lt _ _ _ _ hget, hget],
      tbs[r1].metatable, by simp [metatableOf, getTable, hget, Except.map],
      (hc1 _ (List.getElem_mem _)).1⟩
  | userdata u1 =>
    simp only [ValueClosed] at hx
    have hget : uds[u1]? = some uds[u1] := List.getElem?_eq_getElem hx
    refine ⟨by simp [metatableOf, getUdata, getElem?_append_lt _ _ _ _ hget, hget],
      uds[u1].metatable, by simp [metatableOf, getUdata, hget, Except.map],
      hc2 _ (List.getElem_mem _)⟩
  | nil => exact ⟨rfl, _, rfl, basic _⟩
  | boolean b => exact ⟨rfl, _, rfl, basic _⟩
  | lightuserdata p => exact ⟨rfl, _, rfl, basic _⟩
  | number z => exact ⟨rfl, _, rfl, basic _⟩
  | nan => exact ⟨rfl, _, rfl, basic _⟩
  | str z => exact ⟨rfl, _, rfl, basic _⟩
  | function z => exact ⟨rfl, _, rfl, basic _⟩
  | thread z => exact ⟨rfl, _, rfl, basic _⟩

/-- The metamethod of a closed value is the same, and closed, after the heap grew. -/
theorem luaT_gettmbyobj_frame (stk stk0 tbs uds r g e ups m) (text : List Table)
    (uext : List Udata) (event : String) (x : Value)
    (hc : HeapClosed ⟨stk0, tbs, uds, r, g, e, ups, m⟩)
    (hx : ValueClosed tbs.length uds.length x) :
    luaT_gettmbyobj ⟨stk, tbs ++ text, uds ++ uext, r, g, e, ups, m⟩ x event =
        luaT_gettmbyobj ⟨stk0, tbs, uds, r, g, e, ups, m⟩ x event ∧
      ∀ tm, luaT_gettmbyobj ⟨stk0, tbs, uds, r, g, e, ups, m⟩ x event = .ok tm →
        ValueClosed tbs.length uds.length tm := by
  obtain ⟨h1, o, h2, h3⟩ := metatableOf_frame stk stk0 tbs uds r g e ups m text uext x hc hx
  obtain ⟨h4, h5⟩ := tmOfMeta_frame stk stk0 tbs uds r g e ups m text uext event o hc h3
  simp only [luaT_gettmbyobj, h1, h2]
  exact ⟨h4, h5⟩

/-- A read that starts at a closed value gives the same result after the heap grew. -/
theorem luaV_gettable_loop_frame (stk stk0 tbs uds r g e ups m) (text : List Table)
    (uext : List Udata) (key : Value)
    (hc : HeapClosed ⟨stk0, tbs, uds, r, g, e, ups, m⟩) (n : Nat) :
    ∀ x, ValueClosed tbs.length uds.length x →
      luaV_gettable_loop ⟨stk, tbs ++ text, uds ++ uext, r, g, e, ups, m⟩ key n x =
        luaV_gettable_loop ⟨stk0, tbs, uds, r, g, e, ups, m⟩ key n x := by
  induction n with
  | zero => intro x _; simp [luaV_gettable_loop]
  | succ n ih =>
    intro x hx
    obtain ⟨h1, h2⟩ := luaT_gettmbyobj_frame stk stk0 tbs uds r g e ups m text uext "__index" x
      hc hx
    have hrec : ∀ tm, luaT_gettmbyobj ⟨stk0, tbs, uds, r, g, e, ups, m⟩ x "__index" = .ok tm →
        luaV_gettable_loop ⟨stk, tbs ++ text, uds ++ uext, r, g, e, ups, m⟩ key n tm =
          luaV_gettable_loop ⟨stk0, tbs, uds, r, g, e, ups, m⟩ key n tm :=
      fun tm htm => ih tm (h2 tm htm)
    cases hx2 : x with
    | table r1 =>
      rw [hx2] at hx h1 hrec
      simp only [ValueClosed] at hx
      have hget : tbs[r1]? = some tbs[r1] := List.getElem?_eq_getElem hx
      simp only [luaV_gettable_loop, getTable, getElem?_append_lt _ _ _ _ hget, hget, h1]
      split
      · rfl
      · cases htm : luaT_gettmbyobj ⟨stk0, tbs, uds, r, g, e, ups, m⟩ (.table r1) "__index" with
        | error err => rfl
        | ok tm =>
          have := hrec tm htm
          cases tm <;> simp_all
    | _ =>
      rw [hx2] at h1 hrec
      simp only [luaV_gettable_loop, h1]
      generalize luaT_gettmbyobj ⟨stk0, tbs, uds, r, g, e, ups, m⟩ _ "__index" = res at hrec ⊢
      cases res with
      | error err => rfl
      | ok tm =>
        have := hrec tm rfl
        cases tm <;> simp_all

theorem fenv_get_index (gc : Value) (s : Nat) :
    luaH_get ((if gc = .nil then [] else [(.str "__gc", gc)]) ++
      [(.str "__index", .table s), (.str "__newindex", .table s)]) (.str "__index") =
      .table s := by
  by_cases hgc : gc = .nil <;> simp [hgc, luaH_get]

theorem fenv_get_newindex (gc : Value) (s : Nat) :
    luaH_get ((if gc = .nil then [] else [(.str "__gc", gc)]) ++
      [(.str "__index", .table s), (.str "__newindex", .table s)]) (.str "__newindex") =
      .table s := by
  by_cases hgc : gc = .nil <;> simp [hgc, luaH_get]

theorem luaV_gettable_loop_table (L : lua_State) (key : Value) (n r : Nat) :
    luaV_gettable_loop L key (n + 1) (.table r) =
      match getTable L r with
      | .error e => .error e
      | .ok h =>
        if luaH_get h.entries key ≠ .nil then .ok (luaH_get h.entries key)
        else
          match luaT_gettmbyobj L (.table r) "__index" with
          | .error e => .error e
          | .ok .nil => .ok .nil
          | .ok (.function _) => .error .callmeta
          | .ok tm => luaV_gettable_loop L key n tm := by
  simp only [luaV_gettable_loop]

theorem luaV_gettable_loop_userdata (L : lua_State) (key : Value) (n u : Nat) :
    luaV_gettable_loop L key (n + 1) (.userdata u) =
      match luaT_gettmbyobj L (.userdata u) "__index" with
      | .error e => .error e
      | .ok .nil => .error (.runerror "attempt to index a value")
      | .ok (.function _) => .error .callmeta
      | .ok tm => luaV_gettable_loop L key n tm := by
  simp only [luaV_gettable_loop]

theorem luaV_settable_loop_table (L : lua_State) (key val : Value) (n r : Nat) :
    luaV_settable_loop L key val (n + 1) (.table r) =
      match getTable L r with
      | .error e => .error e
      | .ok h =>
        if key = .nil then .error (.runerror "table index is nil")
        else if key = .nan then .error (.runerror "table index is NaN")
        else if luaH_get h.entries key ≠ .nil then .ok (rawstore L r h key val)
        else
          match luaT_gettmbyobj L (.table r) "__newindex" with
          | .error e => .error e
          | .ok .nil => .ok (rawstore L r h key val)
          | .ok (.function _) => .error .callmeta
          | .ok tm => luaV_settable_loop L key val n tm := by
  simp only [luaV_settable_loop]

theorem luaV_settable_loop_userdata (L : lua_State) (key val : Value) (n u : Nat) :
    luaV_settable_loop L key val (n + 1) (.userdata u) =
      match luaT_gettmbyobj L (.userdata u) "__newindex" with
      | .error e => .error e
      | .ok .nil => .error (.runerror "attempt to index a value")
      | .ok (.function _) => .error .callmeta
      | .ok tm => luaV_settable_loop L key val n tm := by
  simp only [luaV_settable_loop]

/-- A script-level write through a handle whose descriptor has no `__newindex` is a primitive
store into the handle's shadow table. -/
theorem handle_write (L : lua_State) (u ev s d : Nat) (hd : Udata) (E S D : Table)
    (k v : Value)
    (hu : L.udatas[u]? = some hd) (hmt : hd.metatable = some ev)
    (hE : L.tables[ev]? = some E) (hni : luaH_get E.entries (.str "__newindex") = .table s)
    (hS : L.tables[s]? = some S) (hSm : S.metatable = some d)
    (hD : L.tables[d]? = some D) (hDn : luaH_get D.entries (.str "__newindex") = .nil)
    (hk : k ≠ .nil) (hk2 : k ≠ .nan) :
    luaV_settable L (.userdata u) k v = .ok (rawstore L s S k v) := by
  have h100 : MAXTAGLOOP = 98 + 1 + 1 := rfl
  rw [luaV_settable, h100, luaV_settable_loop_userdata]
  simp only [luaT_gettmbyobj, metatableOf, getUdata, hu, Except.map, hmt, tmOfMeta, getTable, hE,
    hni, luaV_settable_loop_table, hS, hk, hk2, if_false, hSm, hD, hDn]
  split <;> rfl

/-- A script-level read through a handle that the shadow table answers. -/
theorem handle_read_hit (L : lua_State) (u ev s : Nat) (hd : Udata) (E S : Table) (k : Value)
    (hu : L.udatas[u]? = some hd) (hmt : hd.metatable = some ev)
    (hE : L.tables[ev]? = some E) (hi : luaH_get E.entries (.str "__index") = .table s)
    (hS : L.tables[s]? = some S) (hk : luaH_get S.entries k ≠ .nil) :
    luaV_gettable L (.userdata u) k = .ok (luaH_get S.entries k) := by
  have h100 : MAXTAGLOOP = 98 + 1 + 1 := rfl
  rw [luaV_gettable, h100, luaV_gettable_loop_userdata]
  simp [luaT_gettmbyobj, metatableOf, getUdata, hu, Except.map, hmt, tmOfMeta, getTable, hE,
    hi, luaV_gettable_loop_table, hS, hk]

/-- A script-level read through a handle whose shadow table has no entry for the key: the
read goes on with the `__index` field of the descriptor. -/
theorem handle_read_miss (L : lua_State) (u ev s d : Nat) (hd : Udata) (E S D : Table)
    (k : Value)
    (hu : L.udatas[u]? = some hd) (hmt : hd.metatable = some ev)
    (hE : L.tables[ev]? = some E) (hi : luaH_get E.entries (.str "__index") = .table s)
    (hS : L.tables[s]? = some S) (hk : luaH_get S.entries k = .nil)
    (hSm : S.metatable = some d) (hD : L.tables[d]? = some D) :
    luaV_gettable L (.userdata u) k =
      match luaH_get D.entries (.str "__index") with
      | .nil => .ok .nil
      | .function _ => .error .callmeta
      | tm => luaV_gettable_loop L k 98 tm := by
  have h100 : MAXTAGLOOP = 98 + 1 + 1 := rfl
  rw [luaV_gettable, h100, luaV_gettable_loop_userdata]
  simp only [luaT_gettmbyobj, metatableOf, getUdata, hu, Except.map, hmt, tmOfMeta, getTable, hE,
    hi, luaV_gettable_loop_table, hS, hk, hSm, hD, ne_eq, not_true_eq_false, if_false]
  cases luaH_get D.entries (.str "__index") <;> rfl

theorem registered_append {stk stk2 tbs uds uds2 r g e ups m} {tname : String} {d : Nat}
    (text : List Table) (h : Registered ⟨stk, tbs, uds, r, g, e, ups, m⟩ tname d) :
    Registered ⟨stk2, tbs ++ text, uds2, r, g, e, ups, m⟩ tname d := by
  obtain ⟨reg, D, hr, hg, hD⟩ := registered_tables h
  refine ⟨?_, ?_⟩
  · simp only
    rw [getElem?_append_lt _ _ _ _ hr]; simp [hg]
  · have := h.2
    simp only [List.length_append] at this ⊢
    omega

/-- C10 (as amended): shadow isolation.  Let `T` be registered with a descriptor `D` that has
no `__newindex` field, in a heap without dangling references, and let `a` and `b` be the
handles pushed by two calls of `obj_new` for `T`.  A script-level write `a[k] = v`, with `k`
neither `nil` nor `NaN` and `v` not `nil`, returns; after it a read of `a[k]` returns `v`, the
descriptor is the table `D` it was, and a read of `b[k]` that returned a value `w` before the
write, calling no function-valued `__index` metamethod, returns `w` after it (`nil` when `D`
has no `__index` field). -/
theorem c10_shadow_isolation (L : lua_State) (sizeA sizeB : Nat) (T : String) (blkA blkB : Ptr)
    (d : Nat) (D : Table) (k v : Value)
    (hreg : Registered L T d) (hD : L.tables[d]? = some D) (hclosed : HeapClosed L)
    (hni : luaH_get D.entries (.str "__newindex") = .nil)
    (hA : blkA ≠ 0) (hB : blkB ≠ 0) (hk : k ≠ .nil) (hk2 : k ≠ .nan) (hv : v ≠ .nil) :
    ∃ L1 L2 L3 a b, obj_new L sizeA T blkA = .ok (blkA, L1) ∧ L1.stack.head? = some a ∧
      obj_new L1 sizeB T blkB = .ok (blkB, L2) ∧ L2.stack.head? = some b ∧
      luaV_settable L2 a k v = .ok L3 ∧
      luaV_gettable L3 a k = .ok v ∧
      L3.tables[d]? = some D ∧
      (∀ w, luaV_gettable L2 b k = .ok w → luaV_gettable L3 b k = .ok w) ∧
      (luaH_get D.entries (.str "__index") = .nil → luaV_gettable L3 b k = .ok .nil) := by
  obtain ⟨stk, tbs, uds, r, g, e, ups, m⟩ := L
  simp only at hD
  have hdlt : d < tbs.length := hreg.2
  have h1 := obj_new_eq stk tbs uds r g e ups m sizeA T blkA d D hreg hD hA
  generalize hEa : (⟨(if luaH_get D.entries (.str "__gc") = .nil then []
      else [(.str "__gc", luaH_get D.entries (.str "__gc"))]) ++
      [(.str "__index", .table tbs.length), (.str "__newindex", .table tbs.length)], none⟩ :
      Table) = Ea at h1
  have hEai : luaH_get Ea.entries (.str "__index") = .table tbs.length := by
    rw [← hEa]; exact fenv_get_index _ _
  have hEan : luaH_get Ea.entries (.str "__newindex") = .table tbs.length := by
    rw [← hEa]; exact fenv_get_newindex _ _
  have hreg1 : Registered ⟨.userdata uds.length :: stk, tbs ++ [⟨[], some d⟩, Ea],
      uds ++ [⟨blkA, sizeA, some (tbs.length + 1), tbs.length + 1⟩], r, g, e, ups, m⟩ T d :=
    registered_append _ hreg
  have h2 := obj_new_eq (.userdata uds.length :: stk) (tbs ++ [⟨[], some d⟩, Ea])
    (uds ++ [⟨blkA, sizeA, some (tbs.length + 1), tbs.length + 1⟩]) r g e ups m sizeB T blkB d D
    hreg1 (getElem?_append_lt _ _ _ _ hD) hB
  generalize hEb : (⟨(if luaH_get D.entries (.str "__gc") = .nil then []
      else [(.str "__gc", luaH_get D.entries (.str "__gc"))]) ++
      [(.str "__index", .table (tbs ++ [⟨[], some d⟩, Ea]).length),
        (.str "__newindex", .table (tbs ++ [⟨[], some d⟩, Ea]).length)], none⟩ :
      Table) = Eb at h2
  have hEbi : luaH_get Eb.entries (.str "__index") = .table (tbs.length + 2) := by
    rw [← hEb]; simpa using fenv_get_index _ (tbs ++ [⟨[], some d⟩, Ea]).length
  simp only [List.length_append, List.length_cons, List.length_nil, List.append_assoc,
    List.cons_append, List.nil_append, Nat.zero_add, Nat.reduceAdd] at h2
  -- the heap after the two calls
  have hua : (uds ++ [(⟨blkA, sizeA, some (tbs.length + 1), tbs.length + 1⟩ : Udata),
      ⟨blkB, sizeB, some (tbs.length + 2 + 1), tbs.length + 2 + 1⟩])[uds.length]? =
      some ⟨blkA, sizeA, some (tbs.length + 1), tbs.length + 1⟩ := getElem?_append_len _ _ _
  have hub : (uds ++ [(⟨blkA, sizeA, some (tbs.length + 1), tbs.length + 1⟩ : Udata),
      ⟨blkB, sizeB, some (tbs.length + 2 + 1), tbs.length + 2 + 1⟩])[uds.length + 1]? =
      some ⟨blkB, sizeB, some (tbs.length + 2 + 1), tbs.length + 2 + 1⟩ :=
    getElem?_append_len1 _ _ _ _
  have get0 : ∀ (x0 x1 x2 x3 : Table), (tbs ++ [x0, x1, x2, x3])[tbs.length]? = some x0 :=
    fun _ _ _ _ => getElem?_append_len _ _ _
  have get1 : ∀ (x0 x1 x2 x3 : Table), (tbs ++ [x0, x1, x2, x3])[tbs.length + 1]? = some x1 :=
    fun _ _ _ _ => getElem?_append_len1 _ _ _ _
  have get2 : ∀ (x0 x1 x2 x3 : Table), (tbs ++ [x0, x1, x2, x3])[tbs.length + 2]? = some x2 := by
    intro x0 x1 x2 x3
    rw [List.getElem?_append_right (by omega)]
    simp
  have get3 : ∀ (x0 x1 x2 x3 : Table),
      (tbs ++ [x0, x1, x2, x3])[tbs.length + 2 + 1]? = some x3 := by
    intro x0 x1 x2 x3
    rw [List.getElem?_append_right (by omega)]
    have h3 : tbs.length + 2 + 1 - tbs.length = 3 := by omega
    rw [h3]; rfl
  have getd : ∀ (text : List Table), (tbs ++ text)[d]? = some D :=
    fun text => getElem?_append_lt _ _ _ _ hD
  have hset : (tbs ++ [⟨[], some d⟩, Ea, ⟨[], some d⟩, Eb]).set tbs.length
      ⟨luaH_set [] k v, some d⟩ = tbs ++ [⟨luaH_set [] k v, some d⟩, Ea, ⟨[], some d⟩, Eb] :=
    set_append_len _ _ _ _
  have hw := handle_write
    ⟨.userdata (uds.length + 1) :: .userdata uds.length :: stk,
      tbs ++ [⟨[], some d⟩, Ea, ⟨[], some d⟩, Eb],
      uds ++ [⟨blkA, sizeA, some (tbs.length + 1), tbs.length + 1⟩,
        ⟨blkB, sizeB, some (tbs.length + 2 + 1), tbs.length + 2 + 1⟩], r, g, e, ups, m⟩
    uds.length (tbs.length + 1) tbs.length d _ Ea ⟨[], some d⟩ D k v hua rfl (get1 _ _ _ _) hEan
    (get0 _ _ _ _) rfl (getd _) hni hk hk2
  simp only [rawstore, hset] at hw
  have hgetv : luaH_get (luaH_set [] k v) k = v := luaH_get_set_self [] k v
  have hra := handle_read_hit
    ⟨.userdata (uds.length + 1) :: .userdata uds.length :: stk,
      tbs ++ [⟨luaH_set [] k v, some d⟩, Ea, ⟨[], some d⟩, Eb],
      uds ++ [⟨blkA, sizeA, some (tbs.length + 1), tbs.length + 1⟩,
        ⟨blkB, sizeB, some (tbs.length + 2 + 1), tbs.length + 2 + 1⟩], r, g, e, ups, m⟩
    uds.length (tbs.length + 1) tbs.length _ Ea ⟨luaH_set [] k v, some d⟩ k hua rfl
    (get1 _ _ _ _) hEai (get0 _ _ _ _) (by simpa [hgetv] using hv)
  simp only [hgetv] at hra
  have hrb3 := handle_read_miss
    ⟨.userdata (uds.length + 1) :: .userdata uds.length :: stk,
      tbs ++ [⟨luaH_set [] k v, some d⟩, Ea, ⟨[], some d⟩, Eb],
      uds ++ [⟨blkA, sizeA, some (tbs.length + 1), tbs.length + 1⟩,
        ⟨blkB, sizeB, some (tbs.length + 2 + 1), tbs.length + 2 + 1⟩], r, g, e, ups, m⟩
    (uds.length + 1) (tbs.length + 2 + 1) (tbs.length + 2) d _ Eb ⟨[], some d⟩ D k hub rfl
    (get3 _ _ _ _) hEbi (get2 _ _ _ _) rfl rfl (getd _)
  have hrb2 := handle_read_miss
    ⟨.userdata (uds.length + 1) :: .userdata uds.length :: stk,
      tbs ++ [⟨[], some d⟩, Ea, ⟨[], some d⟩, Eb],
      uds ++ [⟨blkA, sizeA, some (tbs.length + 1), tbs.length + 1⟩,
        ⟨blkB, sizeB, some (tbs.length + 2 + 1), tbs.length + 2 + 1⟩], r, g, e, ups, m⟩
    (uds.length + 1) (tbs.length + 2 + 1) (tbs.length + 2) d _ Eb ⟨[], some d⟩ D k hub rfl
    (get3 _ _ _ _) hEbi (get2 _ _ _ _) rfl rfl (getd _)
  have hDc : ValueClosed tbs.length uds.length (luaH_get D.entries (.str "__index")) :=
    luaH_get_closed _ _ _ _ (hclosed.1 D (List.getElem?_mem hD)).2
  have hf3 := luaV_gettable_loop_frame
    (.userdata (uds.length + 1) :: .userdata uds.length :: stk) stk tbs uds r g e ups m
    [⟨luaH_set [] k v, some d⟩, Ea, ⟨[], some d⟩, Eb]
    [⟨blkA, sizeA, some (tbs.length + 1), tbs.length + 1⟩,
      ⟨blkB, sizeB, some (tbs.length + 2 + 1), tbs.length + 2 + 1⟩] k hclosed 98 _ hDc
  have hf2 := luaV_gettable_loop_frame
    (.userdata (uds.length + 1) :: .userdata uds.length :: stk) stk tbs uds r g e ups m
    [⟨[], some d⟩, Ea, ⟨[], some d⟩, Eb]
    [⟨blkA, sizeA, some (tbs.length + 1), tbs.length + 1⟩,
      ⟨blkB, sizeB, some (tbs.length + 2 + 1), tbs.length + 2 + 1⟩] k hclosed 98 _ hDc
  refine ⟨_, _, _, .userdata uds.length, .userdata (uds.length + 1), h1, rfl, h2, rfl, hw, hra,
    getd _, fun w hw => Eq.trans ?_ hw, ?_⟩
  · rw [hrb3, hrb2]
    cases hq : luaH_get D.entries (.str "__index") <;> simp only [] <;>
      (rw [hq] at hf3 hf2; rw [hf3, hf2])
  · intro hnil
    rw [hrb3, hnil]

theorem c10_shadow_isolation_witness :
    ∃ L1 L2 L3 a b, obj_new exInit 16 "T" 4096 = .ok (4096, L1) ∧ L1.stack.head? = some a ∧
      obj_new L1 32 "T" 4112 = .ok (4112, L2) ∧ L2.stack.head? = some b ∧
      luaV_settable L2 a (.str "x") (.number 1) = .ok L3 ∧
      luaV_gettable L3 a (.str "x") = .ok (.number 1) ∧
      L3.tables[2]? = some ⟨[(.str "__gc", .function 7), (.str "__index", .table 2),
        (.str "name", .str "T")], none⟩ ∧
      (∀ w, luaV_gettable L2 b (.str "x") = .ok w → luaV_gettable L3 b (.str "x") = .ok w) ∧
      (luaH_get (⟨[(.str "__gc", .function 7), (.str "__index", .table 2),
        (.str "name", .str "T")], none⟩ : Table).entries (.str "__index") = .nil →
        luaV_gettable L3 b (.str "x") = .ok .nil) :=
  c10_shadow_isolation exInit 16 32 "T" 4096 4112 2
    ⟨[(.str "__gc", .function 7), (.str "__index", .table 2), (.str "name", .str "T")], none⟩
    (.str "x") (.number 1) (by decide) (by decide) (by decide) (by decide) (by decide)
    (by decide) (by decide) (by decide) (by decide)

/-- C10 (as stated) fails in these ways.
(1) In `exNewindex` the descriptor of `T` has a `__newindex` field (itself): the write
`a.x = 1` lands in the descriptor, which gains the field `x`, and the second handle `b`, which
read `nil` for `x` before, reads 1 after.
(2) In `exObj2` the descriptor of `T` has `__index` (itself) and a field `name = "T"`: after
the write `a.name = "T"` the read of `b.name` returns the written value, as it did before.
(3) In `exObj2` the write `a.name = nil` changes nothing, and the read of `a.name` returns
`"T"`, not the `nil` that was written.
(4) In `exObj2` the write `a[NaN] = 1` raises an error instead of storing the value.
(5) In `exFn` the descriptor of `T` has a function under `__index`: the read of `b.x` calls
it, before and after the write `a.x = 1`, so what `b` sees is what that function returns. -/
theorem c10_shadow_isolation_counterexample :
    (Registered exNewindex "T" 2 ∧
      obj_new exNewindex 16 "T" 4096 = .ok (4096, exNewindex1) ∧
      obj_new exNewindex1 16 "T" 4112 = .ok (4112, exNewindex2) ∧
      exNewindex2.stack = [.userdata 1, .userdata 0] ∧
      luaV_gettable exNewindex2 (.userdata 1) (.str "x") = .ok .nil ∧
      luaV_settable exNewindex2 (.userdata 0) (.str "x") (.number 1) = .ok exNewindex3 ∧
      (exNewindex2.tables[2]?).map (fun D => luaH_get D.entries (.str "x")) = some .nil ∧
      (exNewindex3.tables[2]?).map (fun D => luaH_get D.entries (.str "x")) =
        some (.number 1) ∧
      luaV_gettable exNewindex3 (.userdata 1) (.str "x") = .ok (.number 1)) ∧
    (Registered exInit "T" 2 ∧
      obj_new exInit 16 "T" 4096 = .ok (4096, exObj) ∧
      obj_new exObj 16 "T" 4112 = .ok (4112, exObj2) ∧
      exObj2.stack = [.userdata 1, .userdata 0] ∧
      luaV_settable exObj2 (.userdata 0) (.str "name") (.str "T") = .ok exObj2Name ∧
      luaV_gettable exObj2Name (.userdata 0) (.str "name") = .ok (.str "T") ∧
      luaV_gettable exObj2Name (.userdata 1) (.str "name") = .ok (.str "T")) ∧
    (luaV_settable exObj2 (.userdata 0) (.str "name") .nil = .ok exObj2 ∧
      luaV_gettable exObj2 (.userdata 0) (.str "name") = .ok (.str "T")) ∧
    luaV_settable exObj2 (.userdata 0) .nan (.number 1) =
      .error (.runerror "table index is NaN") ∧
    (Registered exFn "T" 2 ∧
      obj_new exFn 16 "T" 4096 = .ok (4096, exFn1) ∧
      obj_new exFn1 16 "T" 4112 = .ok (4112, exFn2) ∧
      exFn2.stack = [.userdata 1, .userdata 0] ∧
      luaV_gettable exFn2 (.userdata 1) (.str "x") = .error .callmeta ∧
      luaV_settable exFn2 (.userdata 0) (.str "x") (.number 1) = .ok exFn3 ∧
      luaV_gettable exFn3 (.userdata 1) (.str "x") = .error .callmeta) := by
  decide

end LuaEv
